import Mathlib

/-!
Verification development for the law-finder repository.

The repository consists of two Python scripts:
  src/extract_case_titles.py  -- backfills the caseTitle field of case records
  src/extract_trial_dates.py  -- backfills the trialDate field of case records

This file gives a shallow embedding of the two scripts into Lean.  Pure
string-processing functions of the source become Lean functions over
`String`/`List Char`; the Python `re` module is embedded as a small
backtracking regular-expression engine over an explicit pattern AST (one AST
constant per regex literal of the source); `html.parser.HTMLParser` is
embedded as an HTML tokenizer producing an event list that is folded exactly
as the `handle_starttag`/`handle_endtag`/`handle_data` methods of the source
do; `datetime` is embedded as calendar-date validation plus `strftime`
formatting on (year, month, day) triples.  File-system access is abstracted:
the content of a document file is passed as an `Option String` (with `none`
for a missing/unreadable file), matching the `os.path.exists` / exception
paths of the source.

Known deliberate simplifications of library behaviour (none of the theorems
below depend on them): `html.unescape` is modelled on the common named
entities only; `os.path.join` is modelled as concatenation with a slash;
attribute values containing a quoted right angle bracket inside a start tag
are not given the special quote-aware scan of the stdlib tokenizer.
-/

namespace LawFinder

/-! ## Python string primitives -/

/-- Python whitespace (`str.strip`, `\s` of the `re` module, ASCII range). -/
def isPySpace (c : Char) : Bool :=
  c = ' ' || c = '\t' || c = '\n' || c = '\r' || c = Char.ofNat 11 || c = Char.ofNat 12

/-- Python `str.strip()` on a char list. -/
def pyStripList (cs : List Char) : List Char :=
  ((cs.dropWhile isPySpace).reverse.dropWhile isPySpace).reverse

/-- Python `str.strip()`. -/
def pyStrip (s : String) : String := String.mk (pyStripList s.data)

/-- Python `str.upper()` (ASCII). -/
def pyUpper (s : String) : String := String.mk (s.data.map Char.toUpper)

/-- Python `str.lower()` (ASCII). -/
def pyLower (s : String) : String := String.mk (s.data.map Char.toLower)

/-- Whether `pat` occurs at the start of `cs`. -/
def listStartsWith (cs pat : List Char) : Bool :=
  pat.isPrefixOf cs

/-- Python `pat in s` (substring containment) on char lists. -/
def listContains : List Char → List Char → Bool
  | _, [] => true
  | [], _ :: _ => false
  | c :: cs, pat => listStartsWith (c :: cs) pat || listContains cs pat

/-- Python `pat in s` (substring containment). -/
def pyContains (s pat : String) : Bool := listContains s.data pat.data

/-- Python `s.startswith(pat)`. -/
def pyStartsWith (s pat : String) : Bool := listStartsWith s.data pat.data

/-- Python `s.replace(old, new)` (all non-overlapping occurrences, left to
right) on char lists; `old` is nonempty at every call site. -/
def listReplace (fuel : Nat) (cs old new : List Char) : List Char :=
  match fuel, cs with
  | 0, cs => cs
  | _, [] => []
  | f + 1, c :: cs =>
    if listStartsWith (c :: cs) old && old ≠ [] then
      new ++ listReplace f ((c :: cs).drop old.length) old new
    else
      c :: listReplace f cs old new

/-- Python `s.replace(old, new)`. -/
def pyReplace (s old new : String) : String :=
  String.mk (listReplace (s.data.length + 1) s.data old.data new.data)

/-- Python `str.split(sep)` for a single-character separator (keeps empty
segments, as Python does). -/
def listSplitChar (sep : Char) : List Char → List (List Char)
  | [] => [[]]
  | c :: cs =>
    let rest := listSplitChar sep cs
    if c = sep then [] :: rest
    else
      match rest with
      | [] => [[c]]
      | r :: rs => (c :: r) :: rs

/-- Python `s.split('\n')`. -/
def pySplitNl (s : String) : List String :=
  (listSplitChar '\n' s.data).map String.mk

/-- Python `str.title()`: the first cased character of every run of cased
characters is uppercased, the rest lowercased (ASCII). -/
def pyTitleAux : Bool → List Char → List Char
  | _, [] => []
  | prevAlpha, c :: cs =>
    if c.isAlpha then
      (if prevAlpha then c.toLower else c.toUpper) :: pyTitleAux true cs
    else
      c :: pyTitleAux false cs

/-- Python `str.title()`. -/
def pyTitle (s : String) : String := String.mk (pyTitleAux false s.data)

/-- Python `str.isdigit()` (ASCII digits; nonempty). -/
def pyIsDigit (s : String) : Bool := s.data ≠ [] && s.data.all Char.isDigit

/-- Numeric value of a digit char. -/
def dval (c : Char) : Nat := c.toNat - 48

/-- Python `int(s)` for the digit-only strings produced by the regex groups
of the source (zero for anything else, a default no call site takes). -/
def pyInt (s : String) : Nat :=
  if pyIsDigit s then s.data.foldl (fun a c => a * 10 + dval c) 0 else 0

/-- Python `sep.join(parts)`. -/
def joinWith (sep : String) : List String → String
  | [] => ""
  | [x] => x
  | x :: y :: xs => x ++ sep ++ joinWith sep (y :: xs)

/-- Python `s.split(sep)` for a multi-character separator (non-overlapping,
left to right, keeps empty segments). -/
def listSplitOnAux (sep : List Char) : Nat → List Char → List Char → List (List Char)
  | 0, cs, cur => [cur.reverse ++ cs]
  | _, [], cur => [cur.reverse]
  | f + 1, c :: rest, cur =>
    if listStartsWith (c :: rest) sep && sep ≠ [] then
      cur.reverse :: listSplitOnAux sep f ((c :: rest).drop sep.length) []
    else listSplitOnAux sep f rest (c :: cur)

/-- Python `s.split(sep)`. -/
def pySplitOn (s sep : String) : List String :=
  (listSplitOnAux sep.data (s.data.length + 1) s.data []).map String.mk

/-- Python `os.path.basename` (POSIX): the part after the last slash. -/
def pyBasename (s : String) : String :=
  match (listSplitChar '/' s.data).getLast? with
  | some l => String.mk l
  | none => s

/-- Python `os.path.join(a, b)`, modelled as slash concatenation (the source
only joins a directory with a relative path). -/
def pyPathJoin (a b : String) : String := a ++ "/" ++ b

/-- Truthiness of an optional Python string (`None` and `""` are falsy). -/
def pyTruthy : Option String → Bool
  | none => false
  | some s => s ≠ ""

/-- `html.unescape`, modelled on the named/numeric entities relevant here. -/
def unescapeAux (fuel : Nat) (cs : List Char) : List Char :=
  match fuel, cs with
  | 0, cs => cs
  | _, [] => []
  | f + 1, c :: cs =>
    if c = '&' then
      if listStartsWith cs "amp;".data then '&' :: unescapeAux f (cs.drop 4)
      else if listStartsWith cs "lt;".data then '<' :: unescapeAux f (cs.drop 3)
      else if listStartsWith cs "gt;".data then '>' :: unescapeAux f (cs.drop 3)
      else if listStartsWith cs "quot;".data then '"' :: unescapeAux f (cs.drop 5)
      else if listStartsWith cs "#39;".data then '\'' :: unescapeAux f (cs.drop 4)
      else if listStartsWith cs "nbsp;".data then Char.ofNat 160 :: unescapeAux f (cs.drop 5)
      else c :: unescapeAux f cs
    else c :: unescapeAux f cs

/-- `html.unescape`. -/
def pyUnescape (s : String) : String :=
  String.mk (unescapeAux (s.data.length + 1) s.data)

/-! ## Calendar dates (`datetime`) -/

/-- Gregorian leap year, as `datetime` uses. -/
def isLeap (y : Nat) : Bool := y % 4 = 0 && (y % 100 ≠ 0 || y % 400 = 0)

/-- Days in a month, as `datetime` uses. -/
def daysInMonth (y m : Nat) : Nat :=
  if m = 2 then (if isLeap y then 29 else 28)
  else if m = 4 || m = 6 || m = 9 || m = 11 then 30
  else 31

/-- Whether `datetime(y, m, d)` succeeds (`MINYEAR = 1`, `MAXYEAR = 9999`). -/
def dateValid (y m d : Nat) : Bool :=
  1 ≤ y && y ≤ 9999 && 1 ≤ m && m ≤ 12 && 1 ≤ d && d ≤ daysInMonth y m

/-- Decimal digit character. -/
def digitChar (n : Nat) : Char :=
  match n with
  | 0 => '0' | 1 => '1' | 2 => '2' | 3 => '3' | 4 => '4'
  | 5 => '5' | 6 => '6' | 7 => '7' | 8 => '8' | _ => '9'

/-- Decimal digits of `n`, most significant first. -/
def natDigitsAux : Nat → Nat → List Char → List Char
  | 0, _, acc => acc
  | f + 1, n, acc =>
    if n < 10 then digitChar n :: acc
    else natDigitsAux f (n / 10) (digitChar (n % 10) :: acc)

/-- Decimal representation of `n` (no padding: glibc `%Y`). -/
def natRepr (n : Nat) : String := String.mk (natDigitsAux (n + 1) n [])

/-- Two-digit zero padding (`%m`, `%d`). -/
def pad2 (n : Nat) : String :=
  if n < 10 then "0" ++ natRepr n else natRepr n

/-- `datetime(y, m, d).strftime('%Y-%m-%d')` (glibc: `%Y` unpadded,
`%m`/`%d` zero-padded to two digits). -/
def formatISO (y m d : Nat) : String :=
  natRepr y ++ "-" ++ pad2 m ++ "-" ++ pad2 d

/-- A string is a canonical date when it is the `%Y-%m-%d` rendering of a
calendar date that `datetime` accepts. -/
def IsCanonicalDate (v : String) : Prop :=
  ∃ y m d : Nat, dateValid y m d = true ∧ v = formatISO y m d

/-! ## A backtracking regular-expression engine (embedding of `re`)

Each regex literal of the source is transcribed into an `RTok` AST constant
below.  The engine implements the Python backtracking semantics: leftmost
alternation priority, greedy/lazy quantifiers, capturing groups recording the
last matched text, `^`/`$`/`\b` assertions, and the `IGNORECASE`/`DOTALL`
flags.  A fuel argument bounds the recursion depth; `reFuel` is generous
enough that the engine never runs out on the inputs it is evaluated on. -/

inductive RTok where
  | lit (c : Char)
  | cls (neg : Bool) (ranges : List (Char × Char))
  | anyc
  | eps
  | cat (a b : RTok)
  | alt (a b : RTok)
  | star (greedy : Bool) (a : RTok)
  | rep (lo : Nat) (hi : Option Nat) (greedy : Bool) (a : RTok)
  | grp (i : Nat) (a : RTok)
  | bos
  | eos
  | wordb
deriving Repr

namespace RTok

/-- Sequence of tokens. -/
def seq (ts : List RTok) : RTok := ts.foldr RTok.cat RTok.eps

/-- Literal string. -/
def str (s : String) : RTok := seq (s.data.map RTok.lit)

/-- `?` (greedy optional). -/
def opt (a : RTok) : RTok := RTok.rep 0 (some 1) true a

/-- `+` (greedy). -/
def plus (a : RTok) : RTok := RTok.rep 1 none true a

/-- Alternation of a nonempty list, leftmost priority. -/
def alts : List RTok → RTok
  | [] => RTok.eps
  | [t] => t
  | t :: ts => RTok.alt t (alts ts)

/-- Structural size, used only to compute a safe fuel bound. -/
def size : RTok → Nat
  | lit _ => 1
  | cls _ _ => 1
  | anyc => 1
  | eps => 1
  | cat a b => size a + size b + 1
  | alt a b => size a + size b + 1
  | star _ a => size a + 1
  | rep lo hi _ a => (size a + 1) * (max lo (hi.getD 1) + 1) + 1
  | grp _ a => size a + 1
  | bos => 1
  | eos => 1
  | wordb => 1

end RTok

/-- `\d` -/
def clsDigit : List (Char × Char) := [('0', '9')]

/-- `\s` (ASCII part, which is all the inputs here use) -/
def clsSpace : List (Char × Char) :=
  [(' ', ' '), ('\t', '\t'), ('\n', '\n'), ('\r', '\r'),
   (Char.ofNat 11, Char.ofNat 11), (Char.ofNat 12, Char.ofNat 12)]

/-- `\d` as a token. -/
def rDigit : RTok := RTok.cls false clsDigit

/-- `\s` as a token. -/
def rSpace : RTok := RTok.cls false clsSpace

/-- `\d{1,2}` -/
def rDigit12 : RTok := RTok.rep 1 (some 2) true rDigit

/-- `\d{4}` -/
def rDigit4 : RTok := RTok.rep 4 (some 4) true rDigit

/-- `\s+` -/
def rSpacePlus : RTok := RTok.plus rSpace

/-- `\s*` -/
def rSpaceStar : RTok := RTok.star true rSpace

/-- A word character for `\b` (`[a-zA-Z0-9_]`). -/
def isWordChar (c : Char) : Bool :=
  c.isAlpha || c.isDigit || c = '_'

/-- Case-insensitive-aware membership of a char in a class. -/
def clsMatch (ic neg : Bool) (ranges : List (Char × Char)) (c : Char) : Bool :=
  let inR := fun (x : Char) => ranges.any (fun r => decide (r.1 ≤ x) && decide (x ≤ r.2))
  let hit := if ic then inR c || inR c.toLower || inR c.toUpper else inR c
  if neg then !hit else hit

/-- Char equality under a case-insensitivity flag. -/
def charEq (ic : Bool) (a b : Char) : Bool :=
  if ic then a.toLower = b.toLower else a = b

/-- Captured groups: latest binding first. -/
def Caps := List (Nat × String)

/-- Record group `i` as the text between `a` and `b` of `s`. -/
def setCap (s : List Char) (i a b : Nat) (caps : Caps) : Caps :=
  (i, String.mk ((s.drop a).take (b - a))) :: caps

/-- Look up group `i` (empty string when the group never matched, which no
call site of the source relies on). -/
def getCap (i : Nat) : Caps → String
  | [] => ""
  | (j, v) :: rest => if i = j then v else getCap i rest

/-- Word-boundary test at position `pos` of `s`. -/
def atWordBoundary (s : List Char) (pos : Nat) : Bool :=
  let before := match s.get? (pos - 1) with
    | some c => pos ≠ 0 && isWordChar c
    | none => false
  let after := match s.get? pos with
    | some c => isWordChar c
    | none => false
  before ≠ after

/-- Core backtracking matcher.  `k` is the success continuation; alternatives
are tried in Python order (leftmost/greedy first), and star iterations that
consume nothing are cut off exactly as the `re` engine does. -/
def reRun (ic ds : Bool) (s : List Char) :
    Nat → RTok → Nat → Caps → (Nat → Caps → Option (Nat × Caps)) → Option (Nat × Caps)
  | 0, _, _, _, _ => none
  | _ + 1, RTok.lit c, pos, caps, k =>
    match s.get? pos with
    | some x => if charEq ic c x then k (pos + 1) caps else none
    | none => none
  | _ + 1, RTok.cls neg rs, pos, caps, k =>
    match s.get? pos with
    | some x => if clsMatch ic neg rs x then k (pos + 1) caps else none
    | none => none
  | _ + 1, RTok.anyc, pos, caps, k =>
    match s.get? pos with
    | some x => if ds || x ≠ '\n' then k (pos + 1) caps else none
    | none => none
  | _ + 1, RTok.eps, pos, caps, k => k pos caps
  | f + 1, RTok.cat a b, pos, caps, k =>
    reRun ic ds s f a pos caps (fun p c => reRun ic ds s f b p c k)
  | f + 1, RTok.alt a b, pos, caps, k =>
    (reRun ic ds s f a pos caps k).orElse (fun _ => reRun ic ds s f b pos caps k)
  | f + 1, RTok.star g a, pos, caps, k =>
    let iter := fun (_ : Unit) =>
      reRun ic ds s f a pos caps (fun p c =>
        if p = pos then none else reRun ic ds s f (RTok.star g a) p c k)
    if g then (iter ()).orElse (fun _ => k pos caps)
    else (k pos caps).orElse (fun _ => iter ())
  | f + 1, RTok.rep lo hi g a, pos, caps, k =>
    match lo with
    | l + 1 =>
      reRun ic ds s f a pos caps (fun p c =>
        reRun ic ds s f (RTok.rep l (hi.map (· - 1)) g a) p c k)
    | 0 =>
      match hi with
      | some 0 => k pos caps
      | _ =>
        let iter := fun (_ : Unit) =>
          reRun ic ds s f a pos caps (fun p c =>
            if p = pos then none
            else reRun ic ds s f (RTok.rep 0 (hi.map (· - 1)) g a) p c k)
        if g then (iter ()).orElse (fun _ => k pos caps)
        else (k pos caps).orElse (fun _ => iter ())
  | f + 1, RTok.grp i a, pos, caps, k =>
    reRun ic ds s f a pos caps (fun p c => k p (setCap s i pos p c))
  | _ + 1, RTok.bos, pos, caps, k => if pos = 0 then k pos caps else none
  | _ + 1, RTok.eos, pos, caps, k => if pos = s.length then k pos caps else none
  | _ + 1, RTok.wordb, pos, caps, k =>
    if atWordBoundary s pos then k pos caps else none

/-- A compiled pattern: the AST plus its flags. -/
structure RePat where
  tok : RTok
  ic : Bool := false
  ds : Bool := false
deriving Repr

/-- Fuel that bounds the engine call depth for pattern `p` on `s`. -/
def reFuel (p : RePat) (s : List Char) : Nat :=
  (s.length + 4) * (p.tok.size + 4) * 4 + 100

/-- A regex match: source, span, captured groups. -/
structure RMatch where
  src : String
  mstart : Nat
  mend : Nat
  caps : Caps

/-- `match.group(0)` / `match.group(i)`. -/
def RMatch.group (m : RMatch) (i : Nat) : String :=
  if i = 0 then String.mk ((m.src.data.drop m.mstart).take (m.mend - m.mstart))
  else getCap i m.caps

/-- Try to match `p` at exactly position `pos` of `s`. -/
def reMatchAt (p : RePat) (s : String) (pos : Nat) : Option RMatch :=
  match reRun p.ic p.ds s.data (reFuel p s.data) p.tok pos [] (fun e c => some (e, c)) with
  | some (e, c) => some ⟨s, pos, e, c⟩
  | none => none

/-- `re.match(p, s)`: anchored at the start. -/
def reMatch (p : RePat) (s : String) : Option RMatch := reMatchAt p s 0

/-- `re.search(p, s)` scanning from `start`: leftmost match. -/
def reSearchFrom (p : RePat) (s : String) : Nat → Nat → Option RMatch
  | 0, _ => none
  | f + 1, pos =>
    if pos > s.data.length then none
    else
      match reMatchAt p s pos with
      | some m => some m
      | none => reSearchFrom p s f (pos + 1)

/-- `re.search(p, s)`. -/
def reSearch (p : RePat) (s : String) : Option RMatch :=
  reSearchFrom p s (s.data.length + 2) 0

/-- `re.finditer(p, s)`: successive non-overlapping leftmost matches. -/
def reFindAll (p : RePat) (s : String) : Nat → Nat → List RMatch
  | 0, _ => []
  | f + 1, pos =>
    if pos > s.data.length then []
    else
      match reSearchFrom p s (s.data.length + 2) pos with
      | none => []
      | some m =>
        m :: reFindAll p s f (if m.mend = m.mstart then m.mend + 1 else m.mend)

/-- `re.finditer(p, s)` from the start. -/
def reFinditer (p : RePat) (s : String) : List RMatch :=
  reFindAll p s (s.data.length + 2) 0

/-- `re.sub(p, repl, s)` where `repl` may use the match (covers the constant
replacements and the single `r'\1'` template of the source). -/
def reSubAux (p : RePat) (repl : RMatch → String) (s : String) : Nat → Nat → String
  | 0, pos => String.mk (s.data.drop pos)
  | f + 1, pos =>
    match reSearchFrom p s (s.data.length + 2) pos with
    | none => String.mk (s.data.drop pos)
    | some m =>
      let pre := String.mk ((s.data.drop pos).take (m.mstart - pos))
      if m.mend = m.mstart then
        match s.data.get? m.mend with
        | some c =>
          pre ++ repl m ++ String.mk [c] ++ reSubAux p repl s f (m.mend + 1)
        | none => pre ++ repl m
      else
        pre ++ repl m ++ reSubAux p repl s f m.mend

/-- `re.sub(p, repl, s)`. -/
def reSub (p : RePat) (repl : RMatch → String) (s : String) : String :=
  reSubAux p repl s (s.data.length + 2) 0

/-! ## HTML tokenizer (embedding of `html.parser.HTMLParser.feed`)

`feed` turns the raw document into a stream of events; the two parser
subclasses of the source only react to start tags, end tags and character
data.  Tag names are lowercased as the stdlib does.  A `<script>`/`<style>`
start tag switches the tokenizer to CDATA mode, in which everything up to the
matching end tag is delivered as raw character data (this is why script
bodies reach `handle_data`).  Character references in ordinary data are
converted (`convert_charrefs=True`).  An incomplete construct at the end of
the input stays buffered (the source never calls `close()`), so it produces
no event. -/

inductive HEvent where
  | startTag (name : String)
  | endTag (name : String)
  | dataChunk (text : String)
  | commentChunk (text : String)
deriving Repr, DecidableEq

/-- Characters allowed in a tag name after the initial letter. -/
def isTagNameChar (c : Char) : Bool :=
  c.isAlpha || c.isDigit || c = '-' || c = '.' || c = '_' || c = ':'

/-- Index of the first occurrence of `pat` in `cs`, case-insensitively. -/
def findCI (fuel : Nat) (cs pat : List Char) (acc : Nat) : Option Nat :=
  match fuel, cs with
  | 0, _ => none
  | _ + 1, [] => if pat = [] then some acc else none
  | f + 1, c :: rest =>
    if listStartsWith ((c :: rest).map Char.toLower) (pat.map Char.toLower) then some acc
    else findCI f rest pat (acc + 1)

/-- Index of the first occurrence of `c` in `cs`. -/
def findChar (fuel : Nat) (cs : List Char) (c : Char) (acc : Nat) : Option Nat :=
  match fuel, cs with
  | 0, _ => none
  | _ + 1, [] => none
  | f + 1, x :: rest => if x = c then some acc else findChar f rest c (acc + 1)

/-- The tokenizer.  `cdata` holds the element name while in CDATA mode. -/
def tokenizeAux : Nat → List Char → Option String → List HEvent
  | 0, _, _ => []
  | _ + 1, [], _ => []
  | f + 1, cs, some elem =>
    -- CDATA mode: raw data up to the case-insensitive "</elem"
    let pat := ('<' :: '/' :: elem.data)
    match findCI (cs.length + 1) cs pat 0 with
    | some j =>
      let chunk := cs.take j
      let rest := cs.drop j
      if chunk = [] then tokenizeAux f rest none
      else HEvent.dataChunk (String.mk chunk) :: tokenizeAux f rest none
    | none => [HEvent.dataChunk (String.mk cs)]
  | f + 1, '<' :: rest, none =>
    match rest with
    | '/' :: rest2 =>
      -- end tag
      (match findChar (rest2.length + 1) rest2 '>' 0 with
       | some j =>
         let inner := rest2.take j
         let name := String.mk ((inner.takeWhile isTagNameChar).map Char.toLower)
         HEvent.endTag name :: tokenizeAux f (rest2.drop (j + 1)) none
       | none => [])
    | '!' :: '-' :: '-' :: rest2 =>
      -- comment
      (match findCI (rest2.length + 1) rest2 "-->".data 0 with
       | some j =>
         HEvent.commentChunk (String.mk (rest2.take j)) :: tokenizeAux f (rest2.drop (j + 3)) none
       | none => [])
    | '!' :: rest2 =>
      -- declaration
      (match findChar (rest2.length + 1) rest2 '>' 0 with
       | some j => tokenizeAux f (rest2.drop (j + 1)) none
       | none => [])
    | '?' :: rest2 =>
      -- processing instruction
      (match findChar (rest2.length + 1) rest2 '>' 0 with
       | some j => tokenizeAux f (rest2.drop (j + 1)) none
       | none => [])
    | c :: _ =>
      if c.isAlpha then
        -- start tag (attribute scan is the naive one: up to the next '>')
        match findChar (rest.length + 1) rest '>' 0 with
        | some j =>
          let inner := rest.take j
          let name := String.mk ((inner.takeWhile isTagNameChar).map Char.toLower)
          let selfClosing := inner.getLast? = some '/'
          let rest2 := rest.drop (j + 1)
          if selfClosing then
            HEvent.startTag name :: HEvent.endTag name :: tokenizeAux f rest2 none
          else if name = "script" || name = "style" then
            HEvent.startTag name :: tokenizeAux f rest2 (some name)
          else
            HEvent.startTag name :: tokenizeAux f rest2 none
        | none => []
      else
        -- a lone '<' is text
        HEvent.dataChunk "<" :: tokenizeAux f rest none
    | [] => []
  | f + 1, cs, none =>
    -- text data up to the next '<', with character references converted
    let chunk := cs.takeWhile (· ≠ '<')
    let rest := cs.drop chunk.length
    HEvent.dataChunk (pyUnescape (String.mk chunk)) :: tokenizeAux f rest none

/-- `HTMLParser.feed(html)` as an event list. -/
def tokenize (html : String) : List HEvent :=
  tokenizeAux (html.data.length + 1) html.data none

/-! ## `TextExtractor` / `DateExtractor` (the two renderer subclasses)

Both subclasses share the same logic and differ only in `max_lines` (50 for
titles, 150 for dates): `handle_starttag`/`handle_endtag` toggle `in_body` on
`body` tags, `handle_data` splits a chunk on newlines and appends each
stripped nonempty line while `line_count < max_lines`. -/

structure RenderState where
  lines : List String
  inBody : Bool
  lineCount : Nat
deriving Repr

/-- The inner `for line in data.split('\n')` loop of `handle_data`. -/
def addSegs (maxLines : Nat) : List String → RenderState → RenderState
  | [], st => st
  | seg :: rest, st =>
    if maxLines ≤ st.lineCount then st
    else if pyStrip seg = "" then addSegs maxLines rest st
    else addSegs maxLines rest
      { st with lines := st.lines ++ [pyStrip seg], lineCount := st.lineCount + 1 }

/-- One event, as the three handler methods process it. -/
def feedEvent (maxLines : Nat) (st : RenderState) : HEvent → RenderState
  | HEvent.startTag n => if n = "body" then { st with inBody := true } else st
  | HEvent.endTag n => if n = "body" then { st with inBody := false } else st
  | HEvent.dataChunk d =>
    if st.inBody && st.lineCount < maxLines then addSegs maxLines (pySplitNl d) st
    else st
  | HEvent.commentChunk _ => st

/-- Run the parser subclass with line cap `maxLines` over a document. -/
def renderLines (maxLines : Nat) (html : String) : List String :=
  ((tokenize html).foldl (feedEvent maxLines) ⟨[], false, 0⟩).lines

/-- `extract_text_first_150_lines` of extract_trial_dates.py. -/
def extract_text_first_150_lines (html : String) : List String :=
  (renderLines 150 html).take 150

/-- `extract_plain_text_first_50_lines` of extract_case_titles.py. -/
def extract_plain_text_first_50_lines (html : String) : String :=
  joinWith "\n" ((renderLines 50 html).take 50)

/-! ## `datetime.strptime` for the three formats the source uses -/

/-- `%d` / `%m` of `_strptime`: a two-digit number in `01..maxv`, or a single
digit `1..9` (the exact regex is `3[01]|[12]\d|0[1-9]|[1-9]` resp.
`1[0-2]|0[1-9]|[1-9]`, equivalent to this scan). -/
def scanNum2 (maxv : Nat) : List Char → Option (Nat × List Char)
  | a :: b :: rest =>
    if a.isDigit && b.isDigit then
      let v := dval a * 10 + dval b
      if 1 ≤ v && v ≤ maxv then some (v, rest)
      else if 1 ≤ dval a && dval a ≤ 9 then some (dval a, b :: rest)
      else none
    else if a.isDigit && 1 ≤ dval a && dval a ≤ 9 then some (dval a, b :: rest)
    else none
  | [a] =>
    if a.isDigit && 1 ≤ dval a && dval a ≤ 9 then some (dval a, []) else none
  | [] => none

/-- `%Y` of `_strptime`: exactly four digits. -/
def scanYear4 : List Char → Option (Nat × List Char)
  | a :: b :: c :: d :: rest =>
    if a.isDigit && b.isDigit && c.isDigit && d.isDigit then
      some (dval a * 1000 + dval b * 100 + dval c * 10 + dval d, rest)
    else none
  | _ => none

/-- Whitespace in a `strptime` format: `\s+`. -/
def scanWs : List Char → Option (List Char)
  | c :: rest => if isPySpace c then some (rest.dropWhile isPySpace) else none
  | [] => none

/-- The twelve month names, in order. -/
def monthNames : List String :=
  ["January", "February", "March", "April", "May", "June",
   "July", "August", "September", "October", "November", "December"]

/-- The month names uppercased, as the second script writes them. -/
def monthNamesUpper : List String := monthNames.map pyUpper

/-- `%B` of `_strptime`: a full month name, case-insensitively. -/
def scanMonthName (cs : List Char) : Option (Nat × List Char) :=
  (List.enumFrom 1 monthNames).findSome? (fun p =>
    if listStartsWith (cs.map Char.toLower) (p.2.data.map Char.toLower) then
      some (p.1, cs.drop p.2.data.length)
    else none)

/-- `datetime.strptime(s, '%d %B %Y')`, including the `datetime` range check
(full match required, `ValueError` as `none`). -/
def strptimeDBY (s : String) : Option (Nat × Nat × Nat) :=
  match scanNum2 31 s.data with
  | none => none
  | some (d, r1) =>
  match scanWs r1 with
  | none => none
  | some r2 =>
  match scanMonthName r2 with
  | none => none
  | some (m, r3) =>
  match scanWs r3 with
  | none => none
  | some r4 =>
  match scanYear4 r4 with
  | none => none
  | some (y, r5) =>
    if r5 = [] && dateValid y m d then some (y, m, d) else none

/-- `datetime.strptime(s, '%B %d %Y')`. -/
def strptimeBDY (s : String) : Option (Nat × Nat × Nat) :=
  match scanMonthName s.data with
  | none => none
  | some (m, r1) =>
  match scanWs r1 with
  | none => none
  | some r2 =>
  match scanNum2 31 r2 with
  | none => none
  | some (d, r3) =>
  match scanWs r3 with
  | none => none
  | some r4 =>
  match scanYear4 r4 with
  | none => none
  | some (y, r5) =>
    if r5 = [] && dateValid y m d then some (y, m, d) else none

/-- `datetime.strptime(s, '%Y-%m-%d')`. -/
def strptimeISO (s : String) : Option (Nat × Nat × Nat) :=
  match scanYear4 s.data with
  | none => none
  | some (y, r1) =>
  match r1 with
  | '-' :: r2 =>
    (match scanNum2 12 r2 with
     | none => none
     | some (m, r3) =>
       match r3 with
       | '-' :: r4 =>
         (match scanNum2 31 r4 with
          | none => none
          | some (d, r5) =>
            if r5 = [] && dateValid y m d then some (y, m, d) else none)
       | _ => none)
  | _ => none

/-! ## Regex literals of extract_trial_dates.py -/

/-- `(?:st|nd|rd|th)` -/
def ordinalLower : RTok :=
  RTok.alts [RTok.str "st", RTok.str "nd", RTok.str "rd", RTok.str "th"]

/-- `(?:ST|ND|RD|TH)` -/
def ordinalUpper : RTok :=
  RTok.alts [RTok.str "ST", RTok.str "ND", RTok.str "RD", RTok.str "TH"]

/-- `(?:January|February|...|December)` -/
def monthAltProper : RTok := RTok.alts (monthNames.map RTok.str)

/-- `(?:JANUARY|FEBRUARY|...|DECEMBER)` -/
def monthAltUpper : RTok := RTok.alts (monthNamesUpper.map RTok.str)

/-- `\d{1,2}(?:st|nd|rd|th)?\s+(?:January|...),?\s+\d{4}` -/
def datePartLower : RTok :=
  RTok.seq [rDigit12, RTok.opt ordinalLower, rSpacePlus, monthAltProper,
    RTok.opt (RTok.lit ','), rSpacePlus, rDigit4]

/-- `\d{1,2}(?:ST|ND|RD|TH)?\s+(?:JANUARY|...),?\s+\d{4}` -/
def datePartUpper : RTok :=
  RTok.seq [rDigit12, RTok.opt ordinalUpper, rSpacePlus, monthAltUpper,
    RTok.opt (RTok.lit ','), rSpacePlus, rDigit4]

/-- `(\d{1,2})(?:st|nd|rd|th)?\s+(January|...|December),?\s+(\d{4})` (IGNORECASE) -/
def written1Pat : RePat :=
  { tok := RTok.seq [RTok.grp 1 rDigit12, RTok.opt ordinalLower, rSpacePlus,
      RTok.grp 2 monthAltProper, RTok.opt (RTok.lit ','), rSpacePlus,
      RTok.grp 3 rDigit4],
    ic := true }

/-- `(January|...)\s+(\d{1,2})(?:st|nd|rd|th)?,?\s+(\d{4})` (IGNORECASE) -/
def written2Pat : RePat :=
  { tok := RTok.seq [RTok.grp 1 monthAltProper, rSpacePlus, RTok.grp 2 rDigit12,
      RTok.opt ordinalLower, RTok.opt (RTok.lit ','), rSpacePlus,
      RTok.grp 3 rDigit4],
    ic := true }

/-- `(\d{1,2})(?:ST|ND|RD|TH)?\s+(JANUARY|...|DECEMBER),?\s+(\d{4})` (IGNORECASE) -/
def written3Pat : RePat :=
  { tok := RTok.seq [RTok.grp 1 rDigit12, RTok.opt ordinalUpper, rSpacePlus,
      RTok.grp 2 monthAltUpper, RTok.opt (RTok.lit ','), rSpacePlus,
      RTok.grp 3 rDigit4],
    ic := true }

/-- `(\d{1,2})/(\d{1,2})/(\d{4})` -/
def slashPat : RePat :=
  { tok := RTok.seq [RTok.grp 1 rDigit12, RTok.lit '/', RTok.grp 2 rDigit12,
      RTok.lit '/', RTok.grp 3 rDigit4],
    ic := true }

/-- `(\d{4})-(\d{1,2})-(\d{1,2})` -/
def isoPat : RePat :=
  { tok := RTok.seq [RTok.grp 1 rDigit4, RTok.lit '-', RTok.grp 2 rDigit12,
      RTok.lit '-', RTok.grp 3 rDigit12],
    ic := true }

/-- `(\d+)(st|nd|rd|th)` (IGNORECASE), the ordinal-suffix strip of the
normalizer. -/
def ordinalSubPat : RePat :=
  { tok := RTok.seq [RTok.grp 1 (RTok.plus rDigit), RTok.grp 2 ordinalLower],
    ic := true }

/-- `<script[^>]*>.*?</script>` (DOTALL, IGNORECASE) -/
def scriptSubPat : RePat :=
  { tok := RTok.seq [RTok.str "<script", RTok.star true (RTok.cls true [('>', '>')]),
      RTok.lit '>', RTok.star false RTok.anyc, RTok.str "</script>"],
    ic := true, ds := true }

/-- `<style[^>]*>.*?</style>` (DOTALL, IGNORECASE) -/
def styleSubPat : RePat :=
  { tok := RTok.seq [RTok.str "<style", RTok.star true (RTok.cls true [('>', '>')]),
      RTok.lit '>', RTok.star false RTok.anyc, RTok.str "</style>"],
    ic := true, ds := true }

/-- `<[^>]*>(\d{1,2})<[^>]*>(?:ST|ND|RD|TH)<[^>]*>\s*(JANUARY|...),?\s*(\d{4})`
(IGNORECASE): a date with a superscripted ordinal split across tags. -/
def tagGap : RTok :=
  RTok.seq [RTok.lit '<', RTok.star true (RTok.cls true [('>', '>')]), RTok.lit '>']

/-- First raw-HTML date pattern (split tags). -/
def htmlDate1Pat : RePat :=
  { tok := RTok.seq [tagGap, RTok.grp 1 rDigit12, tagGap, ordinalUpper, tagGap,
      rSpaceStar, RTok.grp 2 monthAltUpper, RTok.opt (RTok.lit ','), rSpaceStar,
      RTok.grp 3 rDigit4],
    ic := true }

/-- `<u[^>]*>(\d{1,2}(?:ST|ND|RD|TH)?\s+(?:JANUARY|...),?\s+\d{4})` (IGNORECASE) -/
def htmlDate2Pat : RePat :=
  { tok := RTok.seq [RTok.str "<u", RTok.star true (RTok.cls true [('>', '>')]),
      RTok.lit '>', RTok.grp 1 datePartUpper],
    ic := true }

/-- `\[(\d{1,2}/\d{1,2}/\d{4})\]` -/
def bracket1Pat : RePat :=
  { tok := RTok.seq [RTok.lit '[', RTok.grp 1 (RTok.seq [rDigit12, RTok.lit '/',
      rDigit12, RTok.lit '/', rDigit4]), RTok.lit ']'],
    ic := true }

/-- `\[(\d{1,2}(?:st|nd|rd|th)?\s+(?:January|...),?\s+\d{4})\]` (IGNORECASE) -/
def bracket2Pat : RePat :=
  { tok := RTok.seq [RTok.lit '[', RTok.grp 1 datePartLower, RTok.lit ']'],
    ic := true }

/-- `(?:H\d+/\d+/\d+|NO\.?\s*[A-Z]?\.?\d+/\d+|J\.\d+/\d+)[^.]*?(datePart)`
(IGNORECASE): a written date after a case-number anchor. -/
def caseNoAnchor : RTok :=
  RTok.alts
    [RTok.seq [RTok.lit 'H', RTok.plus rDigit, RTok.lit '/', RTok.plus rDigit,
       RTok.lit '/', RTok.plus rDigit],
     RTok.seq [RTok.str "NO", RTok.opt (RTok.lit '.'), rSpaceStar,
       RTok.opt (RTok.cls false [('A', 'Z')]), RTok.opt (RTok.lit '.'),
       RTok.plus rDigit, RTok.lit '/', RTok.plus rDigit],
     RTok.seq [RTok.lit 'J', RTok.lit '.', RTok.plus rDigit, RTok.lit '/',
       RTok.plus rDigit]]

/-- `[^.]*?` -/
def nonPeriodLazy : RTok := RTok.star false (RTok.cls true [('.', '.')])

/-- Anchored written-date pattern 1 (case number anchor). -/
def writtenAnchor1Pat : RePat :=
  { tok := RTok.seq [caseNoAnchor, nonPeriodLazy, RTok.grp 1 datePartLower],
    ic := true }

/-- `(?:Coram|CORAM)[^.]*?(datePart)` (IGNORECASE) -/
def writtenAnchor2Pat : RePat :=
  { tok := RTok.seq [RTok.alt (RTok.str "Coram") (RTok.str "CORAM"),
      nonPeriodLazy, RTok.grp 1 datePartLower],
    ic := true }

/-- `(?:JUDGMENT|Judgment)[^.]*?(datePart)` (IGNORECASE) -/
def writtenAnchor3Pat : RePat :=
  { tok := RTok.seq [RTok.alt (RTok.str "JUDGMENT") (RTok.str "Judgment"),
      nonPeriodLazy, RTok.grp 1 datePartLower],
    ic := true }

/-- `(\d{1,2}(?:ST|ND|RD|TH)?\s+(?:JANUARY|...),?\s+\d{4})` (IGNORECASE): the
catch-all written-date pattern (no anchor). -/
def writtenCatchAllPat : RePat :=
  { tok := RTok.grp 1 datePartUpper, ic := true }

/-- The three anchored written-date patterns. -/
def anchoredWrittenPats : List RePat :=
  [writtenAnchor1Pat, writtenAnchor2Pat, writtenAnchor3Pat]

/-- `written_date_patterns`, in source order. -/
def writtenDatePats : List RePat := anchoredWrittenPats ++ [writtenCatchAllPat]

/-- `^(datePartUpper)` (IGNORECASE) -/
def standalone1Pat : RePat :=
  { tok := RTok.seq [RTok.bos, RTok.grp 1 datePartUpper], ic := true }

/-- `^(datePartLower)` (IGNORECASE) -/
def standalone2Pat : RePat :=
  { tok := RTok.seq [RTok.bos, RTok.grp 1 datePartLower], ic := true }

/-- `<u>(datePartUpper)` (IGNORECASE) -/
def standalone3Pat : RePat :=
  { tok := RTok.seq [RTok.str "<u>", RTok.grp 1 datePartUpper], ic := true }

/-- `standalone_patterns`, in source order. -/
def standalonePats : List RePat := [standalone1Pat, standalone2Pat, standalone3Pat]

/-- `(\d{1,2}/\d{1,2}/\d{4})` -/
def earlySlashPat : RePat :=
  { tok := RTok.grp 1 (RTok.seq [rDigit12, RTok.lit '/', rDigit12, RTok.lit '/',
      rDigit4]) }

/-! ## `parse_date_from_text` -/

/-- The cleanup applied to a matched written date before `strptime`: strip
ordinal suffixes, remove commas, title-case. -/
def cleanDateText (g0 : String) : String :=
  pyTitle (pyReplace (reSub ordinalSubPat (fun m => m.group 1) g0) "," "")

/-- One written/ISO format attempt of `parse_date_from_text`. -/
def tryFormat (pat : RePat) (stp : String → Option (Nat × Nat × Nat))
    (t : String) : Option String :=
  match reSearch pat t with
  | none => none
  | some m =>
    match stp (pyStrip (cleanDateText (m.group 0))) with
    | some (y, mo, d) => some (formatISO y mo d)
    | none => none

/-- The slash-numeric resolution of `parse_date_from_text`: try
day/month/year first, retry month/day/year on `ValueError`. -/
def parseSlashNums (day month year : Nat) : Option String :=
  if dateValid year month day then some (formatISO year month day)
  else if dateValid year day month then some (formatISO year day month)
  else none

/-- The slash-format attempt of `parse_date_from_text`. -/
def trySlashFormat (t : String) : Option String :=
  match reSearch slashPat t with
  | none => none
  | some m => parseSlashNums (pyInt (m.group 1)) (pyInt (m.group 2)) (pyInt (m.group 3))

/-- `parse_date_from_text` of extract_trial_dates.py: try the five formats in
order; when none parses, return the stripped original. -/
def parse_date_from_text (s : String) : String :=
  match tryFormat written1Pat strptimeDBY (pyStrip s) with
  | some r => r
  | none =>
  match tryFormat written2Pat strptimeBDY (pyStrip s) with
  | some r => r
  | none =>
  match tryFormat written3Pat strptimeDBY (pyStrip s) with
  | some r => r
  | none =>
  match trySlashFormat (pyStrip s) with
  | some r => r
  | none =>
  match tryFormat isoPat strptimeISO (pyStrip s) with
  | some r => r
  | none => pyStrip (pyStrip s)

/-! ## `find_judgment_date_in_html` -/

/-- First value of `f` over a list (the first-match-wins loops). -/
def firstSome (f : α → Option β) : List α → Option β
  | [] => none
  | x :: xs =>
    match f x with
    | some b => some b
    | none => firstSome f xs

/-- `if parsed and len(parsed) >= 10: return parsed`. -/
def acceptDate (s : String) : Option String :=
  if parse_date_from_text s ≠ "" && 10 ≤ (parse_date_from_text s).length then
    some (parse_date_from_text s)
  else none

/-- Remove script and style elements from raw HTML (the two `re.sub`s). -/
def stripScriptsStyles (h : String) : String :=
  reSub styleSubPat (fun _ => "") (reSub scriptSubPat (fun _ => "") h)

/-- `month_map.get(month.upper(), month.title())`. -/
def month_map_get (m : String) : String :=
  match (monthNamesUpper.zip monthNames).find? (fun p => p.1 = m) with
  | some p => p.2
  | none => pyTitle m

/-- `datetime.strptime(month_name, '%B').month` (case-insensitive;
`ValueError` as `none`). -/
def monthNumber (name : String) : Option Nat :=
  ((List.enumFrom 1 monthNames).find? (fun p => pyLower p.2 = pyLower name)).map (·.1)

/-- The split-tag (superscript) branch of the raw-HTML phase. -/
def trySuperscriptDate (h : String) : Option String :=
  match reSearch htmlDate1Pat h with
  | none => none
  | some m =>
    match monthNumber (month_map_get (pyUpper (m.group 2))) with
    | none => none
    | some mo =>
      if dateValid (pyInt (m.group 3)) mo (pyInt (m.group 1)) then
        some (formatISO (pyInt (m.group 3)) mo (pyInt (m.group 1)))
      else none

/-- The underlined-date branch of the raw-HTML phase. -/
def tryUnderlineDate (h : String) : Option String :=
  match reSearch htmlDate2Pat h with
  | none => none
  | some m => acceptDate (m.group 1)

/-- The whole raw-HTML phase (patterns tried in order, a failed parse falls
through to the next pattern). -/
def htmlDatePhase (html : String) : Option String :=
  match trySuperscriptDate (stripScriptsStyles html) with
  | some v => some v
  | none => tryUnderlineDate (stripScriptsStyles html)

/-- One bracket/written pattern attempt over the header text. -/
def tryHeaderPat (header : String) (pat : RePat) : Option String :=
  match reSearch pat header with
  | none => none
  | some m => acceptDate (m.group 1)

/-- `bracket_patterns` loop. -/
def bracketPhase (header : String) : Option String :=
  firstSome (tryHeaderPat header) [bracket1Pat, bracket2Pat]

/-- `written_date_patterns` loop. -/
def writtenPhase (header : String) : Option String :=
  firstSome (tryHeaderPat header) writtenDatePats

/-- The connector words that disqualify a standalone line. -/
def connectorWords : List String :=
  ["FROM", "TO", "ON", "AT", "BEFORE", "AFTER", "DURING"]

/-- One standalone pattern attempt on one line. -/
def tryStandalone (line : String) (pat : RePat) : Option String :=
  match reMatch pat line with
  | none => none
  | some m =>
    if connectorWords.any (fun w => pyContains (pyUpper line) w) then none
    else acceptDate (m.group 1)

/-- `standalone_patterns` loop over the first 30 lines. -/
def standalonePhase (lines : List String) : Option String :=
  firstSome (fun line => firstSome (tryStandalone line) standalonePats)
    (lines.take 30)

/-- The case-identifying context words of the early slash-date pattern. -/
def contextWords : List String := ["V.", "VRS", "VERSUS", "H1/", "NO.", "CASE"]

/-- `context = ' '.join(lines[max(0, i-2):i+3])` of the early slash-date
loop. -/
def slashContext (lines : List String) (i : Nat) : String :=
  joinWith " " ((lines.drop (i - 2)).take (i + 3 - (i - 2)))

/-- One line of the early slash-date loop (`p.1` is the line index). -/
def tryEarlySlash (lines : List String) (p : Nat × String) : Option String :=
  match reSearch earlySlashPat p.2 with
  | none => none
  | some m =>
    if contextWords.any (fun w => pyContains (pyUpper (slashContext lines p.1)) w) then
      acceptDate (m.group 1)
    else none

/-- The early slash-date loop over the first 20 lines. -/
def earlySlashPhase (lines : List String) : Option String :=
  firstSome (tryEarlySlash lines) (lines.take 20).enum

/-- `header_text = ' '.join(lines[:50])`. -/
def headerText (html : String) : String :=
  joinWith " " ((extract_text_first_150_lines html).take 50)

/-- `find_judgment_date_in_html` of extract_trial_dates.py. -/
def find_judgment_date_in_html (html : String) : Option String :=
  match htmlDatePhase html with
  | some v => some v
  | none =>
    if (extract_text_first_150_lines html).isEmpty then none
    else
      match bracketPhase (headerText html) with
      | some v => some v
      | none =>
      match writtenPhase (headerText html) with
      | some v => some v
      | none =>
      match standalonePhase (extract_text_first_150_lines html) with
      | some v => some v
      | none => earlySlashPhase (extract_text_first_150_lines html)

/-- `extract_trial_date`: `none` stands for a missing or unreadable file. -/
def extract_trial_date (doc : Option String) : Option String :=
  match doc with
  | none => none
  | some html => find_judgment_date_in_html html

/-! ## Regex literals of extract_case_titles.py -/

/-- The party-name character class `[A-Z\s&.,'\-\d()]`. -/
def partyCls : List (Char × Char) :=
  [('A', 'Z')] ++ clsSpace ++
  [('&', '&'), ('.', '.'), (',', ','), ('\'', '\''), ('-', '-')] ++
  clsDigit ++ [('(', '('), (')', ')')]

/-- `(?:\s+&(?:\s+ANO?\.?)?)?` -/
def ampAno : RTok :=
  RTok.opt (RTok.seq [rSpacePlus, RTok.lit '&',
    RTok.opt (RTok.seq [rSpacePlus, RTok.lit 'A', RTok.lit 'N',
      RTok.opt (RTok.lit 'O'), RTok.opt (RTok.lit '.')])])

/-- `(?:\s+&(?:\s+ORS?\.?)?)?` -/
def ampOrs : RTok :=
  RTok.opt (RTok.seq [rSpacePlus, RTok.lit '&',
    RTok.opt (RTok.seq [rSpacePlus, RTok.lit 'O', RTok.lit 'R',
      RTok.opt (RTok.lit 'S'), RTok.opt (RTok.lit '.')])])

/-- `(?:\s+ETC\.?)?` -/
def etcTail : RTok :=
  RTok.opt (RTok.seq [rSpacePlus, RTok.str "ETC", RTok.opt (RTok.lit '.')])

/-- `([A-Z][A-Z\s&.,'\-\d()]+(?:\s+&(?:\s+ANO?\.?)?)?(?:\s+&(?:\s+ORS?\.?)?)?(?:\s+ETC\.?)?)`
captured as group `i`. -/
def partyFull (i : Nat) : RTok :=
  RTok.grp i (RTok.seq [RTok.cls false [('A', 'Z')],
    RTok.plus (RTok.cls false partyCls), ampAno, ampOrs, etcTail])

/-- The same party group without the `ETC` tail (the raw-HTML variants). -/
def partyNoEtc (i : Nat) : RTok :=
  RTok.grp i (RTok.seq [RTok.cls false [('A', 'Z')],
    RTok.plus (RTok.cls false partyCls), ampAno, ampOrs])

/-- `\s+v\.?\s+` -/
def sepVDot : RTok :=
  RTok.seq [rSpacePlus, RTok.lit 'v', RTok.opt (RTok.lit '.'), rSpacePlus]

/-- `\s+VRS\.?\s+` -/
def sepVrs : RTok :=
  RTok.seq [rSpacePlus, RTok.str "VRS", RTok.opt (RTok.lit '.'), rSpacePlus]

/-- `(THE\s+REPUBLIC)` captured as group 1. -/
def theRepublicGrp : RTok :=
  RTok.grp 1 (RTok.seq [RTok.str "THE", rSpacePlus, RTok.str "REPUBLIC"])

/-- `(?:\s+\[.*?\])?` -/
def optBracketCitation : RTok :=
  RTok.opt (RTok.seq [rSpacePlus, RTok.lit '[', RTok.star false RTok.anyc,
    RTok.lit ']'])

/-- Single-line pattern 1: `^(party) \s+v\.?\s+ (party) (?:\s+\[.*?\])?` (IGNORECASE). -/
def single1Pat : RePat :=
  { tok := RTok.seq [RTok.bos, partyFull 1, sepVDot, partyFull 2, optBracketCitation],
    ic := true }

/-- Single-line pattern 2: `^(party) \s+VRS\.?\s+ (party)` (IGNORECASE). -/
def single2Pat : RePat :=
  { tok := RTok.seq [RTok.bos, partyFull 1, sepVrs, partyFull 2], ic := true }

/-- Single-line pattern 3: `^(THE\s+REPUBLIC) \s+v\.?\s+ (party)` (IGNORECASE). -/
def single3Pat : RePat :=
  { tok := RTok.seq [RTok.bos, theRepublicGrp, sepVDot, partyFull 2], ic := true }

/-- `single_line_patterns` in source order. -/
def singleLinePats : List RePat := [single1Pat, single2Pat, single3Pat]

/-- `\b(V\.?|VRS\.?|VERSUS)\b` (no flags). -/
def sepTokenPat : RePat :=
  { tok := RTok.seq [RTok.wordb,
      RTok.grp 1 (RTok.alts
        [RTok.seq [RTok.lit 'V', RTok.opt (RTok.lit '.')],
         RTok.seq [RTok.str "VRS", RTok.opt (RTok.lit '.')],
         RTok.str "VERSUS"]),
      RTok.wordb] }

/-- `^([A-Z][A-Z\s&.,'\-\d()]+)` (no flags): the party fragment of the
split-line strategy. -/
def partyFragPat : RePat :=
  { tok := RTok.seq [RTok.bos, RTok.grp 1 (RTok.seq [RTok.cls false [('A', 'Z')],
      RTok.plus (RTok.cls false partyCls)])] }

/-- `(IN\s+THE\s+MATTER\s+OF[^\.]+)` (IGNORECASE). -/
def matterPat : RePat :=
  { tok := RTok.grp 1 (RTok.seq [RTok.str "IN", rSpacePlus, RTok.str "THE",
      rSpacePlus, RTok.str "MATTER", rSpacePlus, RTok.str "OF",
      RTok.plus (RTok.cls true [('.', '.')])]),
    ic := true }

/-- Raw-HTML title pattern 1: `(party)\s+v\.?\s+(party)` (IGNORECASE). -/
def htmlTitle1Pat : RePat :=
  { tok := RTok.seq [partyNoEtc 1, sepVDot, partyNoEtc 2], ic := true }

/-- Raw-HTML title pattern 2: `(party)\s+VRS\.?\s+(party)` (IGNORECASE). -/
def htmlTitle2Pat : RePat :=
  { tok := RTok.seq [partyNoEtc 1, sepVrs, partyNoEtc 2], ic := true }

/-- Raw-HTML title pattern 3: `(THE\s+REPUBLIC)\s+v\.?\s+(party)` (IGNORECASE). -/
def htmlTitle3Pat : RePat :=
  { tok := RTok.seq [theRepublicGrp, sepVDot, partyNoEtc 2], ic := true }

/-- The raw-HTML title patterns in source order. -/
def htmlTitlePats : List RePat := [htmlTitle1Pat, htmlTitle2Pat, htmlTitle3Pat]

/-- `\s*\[.*?\]\s*$`: the trailing bracketed-suffix strip. -/
def bracketTailSubPat : RePat :=
  { tok := RTok.seq [rSpaceStar, RTok.lit '[', RTok.star false RTok.anyc,
      RTok.lit ']', rSpaceStar, RTok.eos] }

/-- `\s*H\d+/\d+/\d+.*?$`: the trailing case-number strip. -/
def hTailSubPat : RePat :=
  { tok := RTok.seq [rSpaceStar, RTok.lit 'H', RTok.plus rDigit, RTok.lit '/',
      RTok.plus rDigit, RTok.lit '/', RTok.plus rDigit,
      RTok.star false RTok.anyc, RTok.eos] }

/-- `\s+` as a substitution pattern. -/
def wsRunPat : RePat := { tok := rSpacePlus }

/-- `re.sub(r'\s+', ' ', s)`. -/
def collapseWs (s : String) : String := reSub wsRunPat (fun _ => " ") s

/-- `<[^>]+>`: the tag strip applied to a raw-HTML title match. -/
def tagStripPat : RePat :=
  { tok := RTok.seq [RTok.lit '<', RTok.plus (RTok.cls true [('>', '>')]),
      RTok.lit '>'] }

/-! ## `find_case_title_in_text` -/

/-- The cleanup chain of the single-line strategy: strip, drop a trailing
bracketed suffix, drop a trailing case-number suffix, collapse whitespace,
unescape ampersands. -/
def cleanSingleLineTitle (t : String) : String :=
  pyReplace
    (collapseWs
      (reSub hTailSubPat (fun _ => "")
        (reSub bracketTailSubPat (fun _ => "") (pyStrip t))))
    "&amp;" "&"

/-- Strategy 1, one (line, pattern) attempt: clean the match of a single-line
pattern and accept it if long enough and sentinel-free. -/
def trySingleLine (line : String) (pat : RePat) : Option String :=
  match reMatch pat line with
  | none => none
  | some m =>
    if 10 < (cleanSingleLineTitle (m.group 0)).length &&
        !(pyContains (pyLower (cleanSingleLineTitle (m.group 0))) "pages.gif") then
      some (cleanSingleLineTitle (m.group 0))
    else none

/-- Strategy 1: the single-line patterns over the first 30 lines. -/
def titleStrategy1 (lines : List String) : Option String :=
  firstSome (fun line => firstSome (trySingleLine line) singleLinePats)
    (lines.take 30)

/-- The metadata words that disqualify a plaintiff fragment. -/
def plaintiffBadWords : List String :=
  ["PLAINTIFF", "RESPONDENT", "APPELLANT", "CORAM", "JUDGMENT"]

/-- The metadata words that disqualify a defendant fragment. -/
def defendantBadWords : List String :=
  ["DEFENDANT", "RESPONDENT", "APPELLANT"]

/-- `v_word = 'v.' if 'V\.' in line2 or 'V ' in line2 else 'VRS' if 'VRS' in
line2 else 'VERSUS'` (note: `'V\.'` is the two-character literal V-backslash
followed by a dot, since `\.` is not a recognized escape in a plain Python
string). -/
def vWordChoice (line2 : String) : String :=
  if pyContains line2 "V\\." || pyContains line2 "V " then "v."
  else if pyContains line2 "VRS" then "VRS"
  else "VERSUS"

/-- The party fragment a line contributes to the split-line strategy:
`re.match` of the fragment pattern, then `strip()` and whitespace collapse. -/
def partyFrag (l : String) : Option String :=
  (reMatch partyFragPat l).map (fun m => collapseWs (pyStrip (m.group 1)))

/-- Strategy 2, one triple of consecutive lines (`l2u` is the uppercased
middle line, as the source uppercases it before the separator search). -/
def considerTriple (l1 l2u l3 : String) : Option String :=
  if (reSearch sepTokenPat l2u).isSome then
    match partyFrag l1, partyFrag l3 with
    | some plaintiff, some defendant =>
      if plaintiffBadWords.any (fun w => pyContains (pyUpper plaintiff) w) then
        none
      else if defendantBadWords.any (fun w => pyContains (pyUpper defendant) w) then
        none
      else if 10 < (pyReplace (plaintiff ++ " " ++ vWordChoice l2u ++ " " ++ defendant) "&amp;" "&").length then
        some (pyReplace (plaintiff ++ " " ++ vWordChoice l2u ++ " " ++ defendant) "&amp;" "&")
      else none
    | _, _ => none
  else none

/-- Strategy 2: scan triples starting at `i` for
`i in range(min(20, len(lines) - 2))`. -/
def titleStrategy2Aux (lines : List String) : Nat → Nat → Option String
  | 0, _ => none
  | f + 1, i =>
    if i < min 20 (lines.length - 2) then
      match considerTriple (lines.getD i "") (pyUpper (lines.getD (i + 1) ""))
          (lines.getD (i + 2) "") with
      | some t => some t
      | none => titleStrategy2Aux lines f (i + 1)
    else none

/-- Strategy 2 (split-line pattern). -/
def titleStrategy2 (lines : List String) : Option String :=
  titleStrategy2Aux lines 21 0

/-- Strategy 3 ("IN THE MATTER OF"). -/
def titleStrategy3 (lines : List String) : Option String :=
  match reSearch matterPat (joinWith " " (lines.take 30)) with
  | none => none
  | some m =>
    if 10 < (collapseWs (pyStrip (m.group 1))).length then
      some (collapseWs (pyStrip (m.group 1)))
    else none

/-- `lines = [line.strip() for line in text.split('\n') if line.strip()]`
after HTML-entity unescaping. -/
def titleLines (text : String) : List String :=
  ((pySplitNl (pyUnescape text)).map pyStrip).filter (· ≠ "")

/-- `find_case_title_in_text` of extract_case_titles.py. -/
def find_case_title_in_text (text : String) : Option String :=
  match titleStrategy1 (titleLines text) with
  | some t => some t
  | none =>
  match titleStrategy2 (titleLines text) with
  | some t => some t
  | none => titleStrategy3 (titleLines text)

/-! ## `extract_title_from_html` -/

/-- The cleanup chain of the raw-HTML title strategy: strip tags, unescape,
collapse-and-strip whitespace, drop trailing bracketed and case-number
suffixes, unescape ampersands. -/
def cleanHtmlTitle (t : String) : String :=
  pyReplace
    (reSub hTailSubPat (fun _ => "")
      (reSub bracketTailSubPat (fun _ => "")
        (pyStrip (collapseWs (pyUnescape (reSub tagStripPat (fun _ => "") t))))))
    "&amp;" "&"

/-- The per-match cleanup and acceptance of the raw-HTML title strategy. -/
def tryHtmlTitleMatch (m : RMatch) : Option String :=
  if 10 < (cleanHtmlTitle (m.group 0)).length &&
      !(pyContains (pyLower (cleanHtmlTitle (m.group 0))) "pages.gif") then
    some (cleanHtmlTitle (m.group 0))
  else none

/-- The first 5000 characters of the script/style-stripped HTML. -/
def htmlSnippet (html : String) : String :=
  String.mk ((stripScriptsStyles html).data.take 5000)

/-- `extract_title_from_html` of extract_case_titles.py. -/
def extract_title_from_html (html : String) : Option String :=
  firstSome (fun pat => firstSome tryHtmlTitleMatch (reFinditer pat (htmlSnippet html)))
    htmlTitlePats

/-! ## `extract_title_from_filename` -/

/-- The known institutional filename markers that get stripped. -/
def filenameMarkers : List String :=
  ["COURT OF APPEAL__", "SUPREME COURT__", "WACA__", "WALR__"]

/-- One iteration of the `for prefix in prefixes` loop. -/
def markerStep (base : String) (p : String) : String :=
  if pyStartsWith base p then
    let b := String.mk (base.data.drop p.data.length)
    let parts := pySplitOn b "__"
    if 1 < parts.length then
      match parts.reverse.find? (fun part =>
          part ≠ "" && !(pyIsDigit part) && !(pyStartsWith part "20") &&
          part ≠ "TEMP") with
      | some part => part
      | none => b
    else b
  else base

/-- The cleaned filename-derived candidate: basename, drop `.json`, strip the
institutional markers, turn the `__` separators into spaces, collapse
whitespace. -/
def filenameBase (filename : String) : String :=
  collapseWs
    (pyReplace
      (filenameMarkers.foldl markerStep
        (pyReplace (pyBasename filename) ".json" ""))
      "__" " ")

/-- `extract_title_from_filename` of extract_case_titles.py (note: the length
and sentinel checks happen before the final `strip()`). -/
def extract_title_from_filename (filename : String) : Option String :=
  if 10 < (filenameBase filename).length && filenameBase filename ≠ "pages.gif" then
    some (pyStrip (filenameBase filename))
  else none

/-- The guard `if title and title != 'pages.gif'` applied to a strategy
result inside `extract_case_title`. -/
def sentinelFilter : Option String → Option String
  | some t => if t ≠ "" && t ≠ "pages.gif" then some t else none
  | none => none

/-- The rendered-text strategy of `extract_case_title`: skipped when the
rendered text is empty; its result guarded by `sentinelFilter`. -/
def textStrategyResult (html : String) : Option String :=
  if extract_plain_text_first_50_lines html ≠ "" then
    sentinelFilter (find_case_title_in_text (extract_plain_text_first_50_lines html))
  else none

/-- The raw-HTML strategy of `extract_case_title`, guarded. -/
def htmlStrategyResult (html : String) : Option String :=
  sentinelFilter (extract_title_from_html html)

/-- The filename fallback of `extract_case_title`, guarded. -/
def filenameStrategyResult (json_filename : String) : Option String :=
  sentinelFilter (extract_title_from_filename json_filename)

/-- `extract_case_title` of extract_case_titles.py.  `doc` is the content of
the HTML file (`none` for missing/unreadable). -/
def extract_case_title (doc : Option String) (json_filename : String) :
    Option String :=
  match doc with
  | none => filenameStrategyResult json_filename
  | some html =>
    match textStrategyResult html with
    | some t => some t
    | none =>
      match htmlStrategyResult html with
      | some t => some t
      | none => filenameStrategyResult json_filename

/-! ## `update_json_file` (one per script)

The JSON record is modelled by its three fields the scripts read or write;
`fs` abstracts the file system (path to content, `none` for missing or
unreadable).  The Boolean result is the True/False the functions return
("updated" / "not updated").  All other record fields are passed through by
the JSON round-trip and are outside the model. -/

structure CaseRecord where
  caseTitle : Option String
  trialDate : Option String
  sourcePath : Option String
deriving Repr, DecidableEq

/-- `update_json_file` of extract_case_titles.py. -/
def update_json_file_title (fs : String → Option String)
    (json_path law_finder_path : String) (data : CaseRecord) :
    CaseRecord × Bool :=
  if pyTruthy data.caseTitle && data.caseTitle ≠ some "pages.gif" then
    (data, false)
  else if data.sourcePath.getD "" = "" then
    match extract_title_from_filename json_path with
    | some title =>
      if title ≠ "" then ({ data with caseTitle := some title }, true)
      else (data, false)
    | none => (data, false)
  else
    match extract_case_title
        (fs (pyPathJoin law_finder_path (data.sourcePath.getD ""))) json_path with
    | some title =>
      if title ≠ "" then ({ data with caseTitle := some title }, true)
      else (data, false)
    | none => (data, false)

/-- `update_json_file` of extract_trial_dates.py. -/
def update_json_file_date (fs : String → Option String)
    (_json_path law_finder_path : String) (data : CaseRecord) :
    CaseRecord × Bool :=
  if pyTruthy data.trialDate then (data, false)
  else if data.sourcePath.getD "" = "" then (data, false)
  else
    match extract_trial_date
        (fs (pyPathJoin law_finder_path (data.sourcePath.getD ""))) with
    | some date =>
      if date ≠ "" then ({ data with trialDate := some date }, true)
      else (data, false)
    | none => (data, false)

/-! ## Specification-side definitions

These definitions transcribe notions the claims quantify over ("content
inside the body region", "content of a script or style element", "title
derived without the rendered-text strategies").  They are compared with the
embedded source functions by the theorems below. -/

/-- The data chunks delivered while inside the structural body region, per
the `in_body` automaton the claims describe. -/
def bodyChunksSpec : List HEvent → Bool → List String
  | [], _ => []
  | HEvent.startTag n :: es, b =>
    bodyChunksSpec es (if n = "body" then true else b)
  | HEvent.endTag n :: es, b =>
    bodyChunksSpec es (if n = "body" then false else b)
  | HEvent.dataChunk d :: es, b =>
    (if b then [d] else []) ++ bodyChunksSpec es b
  | HEvent.commentChunk _ :: es, b => bodyChunksSpec es b

/-- The data chunks delivered while inside a script or style element. -/
def scriptStyleChunksSpec : List HEvent → Bool → List String
  | [], _ => []
  | HEvent.startTag n :: es, b =>
    scriptStyleChunksSpec es (if n = "script" || n = "style" then true else b)
  | HEvent.endTag n :: es, b =>
    scriptStyleChunksSpec es (if n = "script" || n = "style" then false else b)
  | HEvent.dataChunk d :: es, b =>
    (if b then [d] else []) ++ scriptStyleChunksSpec es b
  | HEvent.commentChunk _ :: es, b => scriptStyleChunksSpec es b

/-- The title pipeline with the rendered-text strategy skipped: only the
raw-HTML strategy and the filename fallback (what C10 says remains available
for a document with no body tag). -/
def titleSkippingRenderedText (html json_filename : String) : Option String :=
  match htmlStrategyResult html with
  | some t => some t
  | none => filenameStrategyResult json_filename

/-! ## Helper lemmas -/

theorem data_append (s t : String) : (s ++ t).data = s.data ++ t.data := by
  cases s; cases t; rfl

theorem digitChar_isDigit (k : Nat) : (digitChar k).isDigit = true := by
  unfold digitChar
  split <;> decide

theorem mem_natDigitsAux {c : Char} :
    ∀ (f n : Nat) (acc : List Char), c ∈ natDigitsAux f n acc →
      c ∈ acc ∨ c.isDigit = true := by
  intro f
  induction f with
  | zero => intro n acc h; exact Or.inl h
  | succ f ih =>
    intro n acc h
    unfold natDigitsAux at h
    split at h
    · rcases List.mem_cons.mp h with h | h
      · exact Or.inr (h ▸ digitChar_isDigit n)
      · exact Or.inl h
    · rcases ih (n / 10) (digitChar (n % 10) :: acc) h with h | h
      · rcases List.mem_cons.mp h with h | h
        · exact Or.inr (h ▸ digitChar_isDigit (n % 10))
        · exact Or.inl h
      · exact Or.inr h

theorem mem_natRepr {c : Char} {n : Nat} (h : c ∈ (natRepr n).data) :
    c.isDigit = true := by
  rcases mem_natDigitsAux (n + 1) n [] h with h | h
  · cases h
  · exact h

theorem mem_pad2 {c : Char} {n : Nat} (h : c ∈ (pad2 n).data) :
    c.isDigit = true := by
  unfold pad2 at h
  split at h
  · rw [data_append] at h
    rcases List.mem_append.mp h with h | h
    · simp only [List.mem_singleton, show ("0" : String).data = ['0'] from rfl] at h
      exact h ▸ (by decide)
    · exact mem_natRepr h
  · exact mem_natRepr h

theorem mem_formatISO {c : Char} {y m d : Nat}
    (h : c ∈ (formatISO y m d).data) : c.isDigit = true ∨ c = '-' := by
  unfold formatISO at h
  rw [data_append, data_append, data_append, data_append] at h
  have hdash : (("-" : String)).data = ['-'] := rfl
  rcases List.mem_append.mp h with h | h
  · rcases List.mem_append.mp h with h | h
    · rcases List.mem_append.mp h with h | h
      · rcases List.mem_append.mp h with h | h
        · exact Or.inl (mem_natRepr h)
        · rw [hdash] at h; exact Or.inr (List.mem_singleton.mp h)
      · exact Or.inl (mem_pad2 h)
    · rw [hdash] at h; exact Or.inr (List.mem_singleton.mp h)
  · exact Or.inl (mem_pad2 h)

theorem not_canonical_of_slash {v : String} (hs : '/' ∈ v.data) :
    ¬ IsCanonicalDate v := by
  rintro ⟨y, m, d, -, rfl⟩
  rcases mem_formatISO hs with h | h <;> exact absurd h (by decide)

theorem joinWith_nil (sep : String) : joinWith sep [] = "" := rfl

section
/- Making the embedded functions irreducible inside this section keeps the
symbolic proofs from unfolding them; the concrete evaluations live outside
the section. -/
attribute [local irreducible] pyStrip pyUpper pyLower pyContains pyStartsWith
  pyReplace pyUnescape pySplitNl pyIsDigit pyInt joinWith pySplitOn pyBasename
  pyTitle collapseWs reSearch reMatch reMatchAt reSub reFinditer tokenize
  renderLines extract_plain_text_first_50_lines extract_text_first_150_lines
  parse_date_from_text filenameBase cleanSingleLineTitle cleanHtmlTitle
  partyFrag vWordChoice headerText slashContext stripScriptsStyles htmlSnippet
  month_map_get monthNumber formatISO pad2 natRepr dateValid strptimeDBY
  strptimeBDY strptimeISO titleLines pyPathJoin pyTruthy

theorem firstSome_eq_some {α β : Type} {f : α → Option β} :
    ∀ {xs : List α} {b : β}, firstSome f xs = some b →
      ∃ a, a ∈ xs ∧ f a = some b := by
  intro xs
  induction xs with
  | nil => intro b h; cases h
  | cons x xs ih =>
    intro b h
    unfold firstSome at h
    split at h
    · exact ⟨x, List.mem_cons_self x xs, by simp_all⟩
    · rcases ih h with ⟨a, ha, hfa⟩
      exact ⟨a, List.mem_cons_of_mem x ha, hfa⟩

theorem strptimeDBY_valid {s : String} {y m d : Nat}
    (h : strptimeDBY s = some (y, m, d)) : dateValid y m d = true := by
  unfold strptimeDBY at h
  repeat' split at h
  all_goals simp_all

theorem strptimeBDY_valid {s : String} {y m d : Nat}
    (h : strptimeBDY s = some (y, m, d)) : dateValid y m d = true := by
  unfold strptimeBDY at h
  repeat' split at h
  all_goals simp_all

theorem strptimeISO_valid {s : String} {y m d : Nat}
    (h : strptimeISO s = some (y, m, d)) : dateValid y m d = true := by
  unfold strptimeISO at h
  repeat' split at h
  all_goals simp_all

theorem tryFormat_canonical {pat : RePat}
    {stp : String → Option (Nat × Nat × Nat)} {t r : String}
    (hstp : ∀ u y m d, stp u = some (y, m, d) → dateValid y m d = true)
    (h : tryFormat pat stp t = some r) : IsCanonicalDate r := by
  unfold tryFormat at h
  split at h
  · cases h
  · split at h
    · rename_i u y m d heq
      cases h
      exact ⟨_, _, _, hstp _ _ _ _ heq, rfl⟩
    · cases h

theorem parseSlashNums_canonical {d m y : Nat} {r : String}
    (h : parseSlashNums d m y = some r) : IsCanonicalDate r := by
  unfold parseSlashNums at h
  split at h
  · cases h; exact ⟨_, _, _, by assumption, rfl⟩
  · split at h
    · cases h; exact ⟨_, _, _, by assumption, rfl⟩
    · cases h

theorem trySlashFormat_canonical {t r : String}
    (h : trySlashFormat t = some r) : IsCanonicalDate r := by
  unfold trySlashFormat at h
  split at h
  · cases h
  · exact parseSlashNums_canonical h

/-- Shape of `parse_date_from_text`: either a canonical date or the stripped
original text. -/
theorem parse_date_from_text_shape (s : String) :
    IsCanonicalDate (parse_date_from_text s) ∨
      ∃ u, parse_date_from_text s = pyStrip u := by
  unfold parse_date_from_text
  split
  · exact Or.inl (tryFormat_canonical (fun u y m d h => strptimeDBY_valid h) (by assumption))
  · split
    · exact Or.inl (tryFormat_canonical (fun u y m d h => strptimeBDY_valid h) (by assumption))
    · split
      · exact Or.inl (tryFormat_canonical (fun u y m d h => strptimeDBY_valid h) (by assumption))
      · split
        · exact Or.inl (trySlashFormat_canonical (by assumption))
        · split
          · exact Or.inl (tryFormat_canonical (fun u y m d h => strptimeISO_valid h) (by assumption))
          · exact Or.inr ⟨pyStrip s, rfl⟩

theorem acceptDate_spec {s v : String} (h : acceptDate s = some v) :
    (IsCanonicalDate v ∨ ∃ u, v = pyStrip u) ∧ 10 ≤ v.length := by
  unfold acceptDate at h
  split at h
  · rename_i hc
    cases h
    refine ⟨?_, ?_⟩
    · rcases parse_date_from_text_shape s with h | ⟨u, hu⟩
      · exact Or.inl h
      · exact Or.inr ⟨u, hu⟩
    · exact (Bool.and_eq_true _ _ |>.mp hc).2 |> of_decide_eq_true
  · cases h

/-- The disjunction every value returned by the date extractor satisfies. -/
def DateResultOk (v : String) : Prop :=
  IsCanonicalDate v ∨ ((∃ u, v = pyStrip u) ∧ 10 ≤ v.length)

theorem acceptDate_post {s v : String} (h : acceptDate s = some v) :
    DateResultOk v := by
  rcases acceptDate_spec h with ⟨hshape, hlen⟩
  rcases hshape with h1 | h1
  · exact Or.inl h1
  · exact Or.inr ⟨h1, hlen⟩

theorem trySuperscriptDate_post {h v : String}
    (hv : trySuperscriptDate h = some v) : DateResultOk v := by
  unfold trySuperscriptDate at hv
  split at hv
  · cases hv
  · split at hv
    · cases hv
    · split at hv
      · cases hv
        exact Or.inl ⟨_, _, _, by assumption, rfl⟩
      · cases hv

theorem tryUnderlineDate_post {h v : String}
    (hv : tryUnderlineDate h = some v) : DateResultOk v := by
  unfold tryUnderlineDate at hv
  split at hv
  · cases hv
  · exact acceptDate_post hv

theorem htmlDatePhase_post {h v : String}
    (hv : htmlDatePhase h = some v) : DateResultOk v := by
  unfold htmlDatePhase at hv
  split at hv
  · cases hv; exact trySuperscriptDate_post (by assumption)
  · exact tryUnderlineDate_post hv

theorem tryHeaderPat_post {header v : String} {pat : RePat}
    (h : tryHeaderPat header pat = some v) : DateResultOk v := by
  unfold tryHeaderPat at h
  split at h
  · cases h
  · exact acceptDate_post h

theorem tryStandalone_post {line v : String} {pat : RePat}
    (h : tryStandalone line pat = some v) : DateResultOk v := by
  unfold tryStandalone at h
  split at h
  · cases h
  · split at h
    · cases h
    · exact acceptDate_post h

theorem tryEarlySlash_post {lines : List String} {p : Nat × String} {v : String}
    (h : tryEarlySlash lines p = some v) : DateResultOk v := by
  unfold tryEarlySlash at h
  split at h
  · cases h
  · split at h
    · exact acceptDate_post h
    · cases h

theorem bracketPhase_post {header v : String}
    (h : bracketPhase header = some v) : DateResultOk v := by
  rcases firstSome_eq_some h with ⟨pat, -, hp⟩
  exact tryHeaderPat_post hp

theorem writtenPhase_post {header v : String}
    (h : writtenPhase header = some v) : DateResultOk v := by
  rcases firstSome_eq_some h with ⟨pat, -, hp⟩
  exact tryHeaderPat_post hp

theorem standalonePhase_post {lines : List String} {v : String}
    (h : standalonePhase lines = some v) : DateResultOk v := by
  rcases firstSome_eq_some h with ⟨line, -, hl⟩
  rcases firstSome_eq_some hl with ⟨pat, -, hp⟩
  exact tryStandalone_post hp

theorem earlySlashPhase_post {lines : List String} {v : String}
    (h : earlySlashPhase lines = some v) : DateResultOk v := by
  rcases firstSome_eq_some h with ⟨p, -, hp⟩
  exact tryEarlySlash_post hp

/-! ## Claim theorems -/

/-- C1 (amended): whenever the date extractor returns a value, that value is
either a canonical `YYYY-MM-DD` rendering of a calendar date accepted by
`datetime`, or the whitespace-stripped text of a matched candidate that
failed every date-format parse, in which case it is at least 10 characters
long; when no strategy matches, the extractor returns no value (it never
returns a `some` outside these two shapes). -/
theorem spec_C1_amended (html v : String)
    (h : find_judgment_date_in_html html = some v) : DateResultOk v := by
  unfold find_judgment_date_in_html at h
  split at h
  · cases h; exact htmlDatePhase_post (by assumption)
  · split at h
    · cases h
    · split at h
      · cases h; exact bracketPhase_post (by assumption)
      · split at h
        · cases h; exact writtenPhase_post (by assumption)
        · split at h
          · cases h; exact standalonePhase_post (by assumption)
          · exact earlySlashPhase_post h

/-- C2: each update operation mutates its record only when the targeted field
is absent/empty or the sentinel `"pages.gif"`; a record whose targeted field
is a nonempty non-sentinel string is returned unchanged with the
"not updated" signal.  (The date updater is even stricter: it also skips a
sentinel-valued `trialDate`, which still satisfies the claimed "only if".) -/
theorem spec_C2_update_invariant (fs : String → Option String)
    (jp lfp : String) (rec : CaseRecord) :
    (pyTruthy rec.caseTitle = true ∧ rec.caseTitle ≠ some "pages.gif" →
      update_json_file_title fs jp lfp rec = (rec, false)) ∧
    (pyTruthy rec.trialDate = true ∧ rec.trialDate ≠ some "pages.gif" →
      update_json_file_date fs jp lfp rec = (rec, false)) ∧
    ((update_json_file_title fs jp lfp rec).1 ≠ rec →
      ¬(pyTruthy rec.caseTitle = true ∧ rec.caseTitle ≠ some "pages.gif")) ∧
    ((update_json_file_date fs jp lfp rec).1 ≠ rec →
      ¬(pyTruthy rec.trialDate = true ∧ rec.trialDate ≠ some "pages.gif")) := by
  have htitle : pyTruthy rec.caseTitle = true ∧ rec.caseTitle ≠ some "pages.gif" →
      update_json_file_title fs jp lfp rec = (rec, false) := by
    rintro ⟨h1, h2⟩
    unfold update_json_file_title
    rw [if_pos]
    rw [h1]
    simpa using h2
  have hdate : pyTruthy rec.trialDate = true →
      update_json_file_date fs jp lfp rec = (rec, false) := by
    intro h1
    unfold update_json_file_date
    rw [if_pos h1]
  refine ⟨htitle, fun h => hdate h.1, ?_, ?_⟩
  · intro hne hcond
    exact hne (by rw [htitle hcond])
  · intro hne hcond
    exact hne (by rw [hdate hcond.1])

/-! Post-conditions of the five title strategies. -/

theorem trySingleLine_post {line t : String} {pat : RePat}
    (h : trySingleLine line pat = some t) :
    (∃ m0, t = cleanSingleLineTitle m0) ∧ 10 < t.length ∧
      pyContains (pyLower t) "pages.gif" = false := by
  unfold trySingleLine at h
  split at h
  · cases h
  · split at h
    · rename_i hc
      cases h
      rw [Bool.and_eq_true] at hc
      exact ⟨⟨_, rfl⟩, of_decide_eq_true hc.1,
        by simpa using hc.2⟩
    · cases h

theorem considerTriple_post {l1 l2 l3 t : String}
    (h : considerTriple l1 l2 l3 = some t) : 10 < t.length := by
  unfold considerTriple at h
  split at h
  · split at h
    · split at h
      · cases h
      · split at h
        · cases h
        · split at h
          · rename_i hlen
            cases h
            exact hlen
          · cases h
    · cases h
  · cases h

theorem titleStrategy1_post {lines : List String} {t : String}
    (h : titleStrategy1 lines = some t) :
    (∃ m0, t = cleanSingleLineTitle m0) ∧ 10 < t.length ∧
      pyContains (pyLower t) "pages.gif" = false := by
  rcases firstSome_eq_some h with ⟨line, -, hl⟩
  rcases firstSome_eq_some hl with ⟨pat, -, hp⟩
  exact trySingleLine_post hp

theorem titleStrategy2Aux_post {lines : List String} {t : String} :
    ∀ (f i : Nat), titleStrategy2Aux lines f i = some t → 10 < t.length := by
  intro f
  induction f with
  | zero => intro i h; cases h
  | succ f ih =>
    intro i h
    unfold titleStrategy2Aux at h
    split at h
    · split at h
      · cases h; exact considerTriple_post (by assumption)
      · exact ih (i + 1) h
    · cases h

theorem titleStrategy2_post {lines : List String} {t : String}
    (h : titleStrategy2 lines = some t) : 10 < t.length :=
  titleStrategy2Aux_post 21 0 h

theorem titleStrategy3_post {lines : List String} {t : String}
    (h : titleStrategy3 lines = some t) : 10 < t.length := by
  unfold titleStrategy3 at h
  split at h
  · cases h
  · split at h
    · rename_i hlen
      cases h
      exact hlen
    · cases h

theorem find_case_title_in_text_post {text t : String}
    (h : find_case_title_in_text text = some t) : 10 < t.length := by
  unfold find_case_title_in_text at h
  split at h
  · cases h; exact (titleStrategy1_post (by assumption)).2.1
  · split at h
    · cases h; exact titleStrategy2_post (by assumption)
    · exact titleStrategy3_post h

theorem tryHtmlTitleMatch_post {m : RMatch} {t : String}
    (h : tryHtmlTitleMatch m = some t) :
    (∃ m0, t = cleanHtmlTitle m0) ∧ 10 < t.length ∧
      pyContains (pyLower t) "pages.gif" = false := by
  unfold tryHtmlTitleMatch at h
  split at h
  · rename_i hc
    cases h
    rw [Bool.and_eq_true] at hc
    exact ⟨⟨_, rfl⟩, of_decide_eq_true hc.1, by simpa using hc.2⟩
  · cases h

theorem extract_title_from_html_post {html t : String}
    (h : extract_title_from_html html = some t) :
    (∃ m0, t = cleanHtmlTitle m0) ∧ 10 < t.length ∧
      pyContains (pyLower t) "pages.gif" = false := by
  rcases firstSome_eq_some h with ⟨pat, -, hp⟩
  rcases firstSome_eq_some hp with ⟨m, -, hm⟩
  exact tryHtmlTitleMatch_post hm

theorem extract_title_from_filename_post {fn t : String}
    (h : extract_title_from_filename fn = some t) :
    ∃ b, t = pyStrip b ∧ 10 < b.length ∧ b ≠ "pages.gif" := by
  unfold extract_title_from_filename at h
  split at h
  · rename_i hc
    cases h
    rw [Bool.and_eq_true] at hc
    exact ⟨filenameBase fn, rfl, of_decide_eq_true hc.1, of_decide_eq_true hc.2⟩
  · cases h

theorem sentinelFilter_eq_some {o : Option String} {t : String}
    (h : sentinelFilter o = some t) :
    o = some t ∧ t ≠ "" ∧ t ≠ "pages.gif" := by
  cases o with
  | none => cases h
  | some r =>
    simp only [sentinelFilter] at h
    by_cases hc : (decide (r ≠ "") && decide (r ≠ "pages.gif")) = true
    · rw [if_pos hc] at h
      cases h
      rw [Bool.and_eq_true] at hc
      exact ⟨rfl, of_decide_eq_true hc.1, of_decide_eq_true hc.2⟩
    · rw [if_neg hc] at h
      cases h

theorem textStrategyResult_post {html t : String}
    (h : textStrategyResult html = some t) :
    t ≠ "pages.gif" ∧ t ≠ "" ∧ 10 < t.length := by
  unfold textStrategyResult at h
  split at h
  · rcases sentinelFilter_eq_some h with ⟨hfind, h1, h2⟩
    exact ⟨h2, h1, find_case_title_in_text_post hfind⟩
  · cases h

theorem htmlStrategyResult_post {html t : String}
    (h : htmlStrategyResult html = some t) :
    t ≠ "pages.gif" ∧ t ≠ "" ∧ 10 < t.length := by
  unfold htmlStrategyResult at h
  rcases sentinelFilter_eq_some h with ⟨hfind, h1, h2⟩
  exact ⟨h2, h1, (extract_title_from_html_post hfind).2.1⟩

theorem filenameStrategyResult_post {fn t : String}
    (h : filenameStrategyResult fn = some t) :
    t ≠ "pages.gif" ∧ t ≠ "" := by
  unfold filenameStrategyResult at h
  rcases sentinelFilter_eq_some h with ⟨-, h1, h2⟩
  exact ⟨h2, h1⟩

theorem extract_case_title_post {doc : Option String} {fn t : String}
    (h : extract_case_title doc fn = some t) : t ≠ "pages.gif" ∧ t ≠ "" := by
  unfold extract_case_title at h
  split at h
  · exact filenameStrategyResult_post h
  · split at h
    · cases h
      have := textStrategyResult_post (by assumption)
      exact ⟨this.1, this.2.1⟩
    · split at h
      · cases h
        have := htmlStrategyResult_post (by assumption)
        exact ⟨this.1, this.2.1⟩
      · exact filenameStrategyResult_post h

/-- C3 (amended): the title extractor never returns the empty string or the
exact (case-sensitive) string `"pages.gif"`.  Titles produced from rendered
text have length > 10, and titles produced from raw HTML additionally never
contain `"pages.gif"` case-insensitively; a filename-derived title is only
the whitespace-trim of a string that had length > 10 and differed
case-sensitively from the sentinel, so after trimming it may be short or may
match the sentinel case-insensitively. -/
theorem spec_C3_amended :
    (∀ (doc : Option String) (fn t : String),
      extract_case_title doc fn = some t → t ≠ "pages.gif" ∧ t ≠ "") ∧
    (∀ text t : String,
      find_case_title_in_text text = some t → 10 < t.length) ∧
    (∀ html t : String, extract_title_from_html html = some t →
      10 < t.length ∧ pyContains (pyLower t) "pages.gif" = false) ∧
    (∀ fn t : String, extract_title_from_filename fn = some t →
      ∃ b, t = pyStrip b ∧ 10 < b.length ∧ b ≠ "pages.gif") :=
  ⟨fun _ _ _ h => extract_case_title_post h,
   fun _ _ h => find_case_title_in_text_post h,
   fun _ _ h => ⟨(extract_title_from_html_post h).2.1,
     (extract_title_from_html_post h).2.2⟩,
   fun _ _ h => extract_title_from_filename_post h⟩

/-- C7 (amended): each title strategy applies its own acceptance rule, not a
shared one.  The single-line and raw-HTML strategies apply the full cleanup
(whitespace collapse, bracketed-suffix strip, case-number strip, entity
handling) and reject candidates of length ≤ 10 or containing the sentinel
case-insensitively; the split-line and matter-of strategies only check
length > 10; the filename fallback checks length and the exact sentinel on
the candidate before its final trim. -/
theorem spec_C7_amended :
    (∀ (line : String) (pat : RePat) (t : String),
      trySingleLine line pat = some t →
        (∃ m0, t = cleanSingleLineTitle m0) ∧ 10 < t.length ∧
          pyContains (pyLower t) "pages.gif" = false) ∧
    (∀ l1 l2 l3 t : String, considerTriple l1 l2 l3 = some t → 10 < t.length) ∧
    (∀ (lines : List String) (t : String),
      titleStrategy3 lines = some t → 10 < t.length) ∧
    (∀ (m : RMatch) (t : String), tryHtmlTitleMatch m = some t →
      (∃ m0, t = cleanHtmlTitle m0) ∧ 10 < t.length ∧
        pyContains (pyLower t) "pages.gif" = false) ∧
    (∀ fn t : String, extract_title_from_filename fn = some t →
      ∃ b, t = pyStrip b ∧ 10 < b.length ∧ b ≠ "pages.gif") :=
  ⟨fun _ _ _ h => trySingleLine_post h,
   fun _ _ _ _ h => considerTriple_post h,
   fun _ _ h => titleStrategy3_post h,
   fun _ _ h => tryHtmlTitleMatch_post h,
   fun _ _ h => extract_title_from_filename_post h⟩

/-- C8 (amended): a split-line triple is rejected whenever the plaintiff
fragment contains one of PLAINTIFF, RESPONDENT, APPELLANT, CORAM, JUDGMENT,
or the defendant fragment contains one of DEFENDANT, RESPONDENT, APPELLANT —
the two fragments are checked against different word lists, not one shared
six-word list. -/
theorem spec_C8_amended (l1 l2 l3 p d : String)
    (hp : partyFrag l1 = some p) (hd : partyFrag l3 = some d)
    (hbad : plaintiffBadWords.any (fun w => pyContains (pyUpper p) w) = true ∨
      defendantBadWords.any (fun w => pyContains (pyUpper d) w) = true) :
    considerTriple l1 l2 l3 = none := by
  unfold considerTriple
  split
  · simp only [hp, hd]
    rcases hbad with hb | hb
    · rw [if_pos hb]
    · by_cases hb1 :
        plaintiffBadWords.any (fun w => pyContains (pyUpper p) w) = true
      · rw [if_pos hb1]
      · rw [if_neg hb1, if_pos hb]
  · rfl

theorem tryHeaderPat_search {header v : String} {pat : RePat}
    (h : tryHeaderPat header pat = some v) :
    (reSearch pat header).isSome = true := by
  unfold tryHeaderPat at h
  split at h
  · cases h
  · rename_i m heq
    rw [heq]
    rfl

theorem tryStandalone_sources {line v : String} {pat : RePat}
    (h : tryStandalone line pat = some v) :
    (reMatch pat line).isSome = true ∧
      connectorWords.all (fun w => !(pyContains (pyUpper line) w)) = true := by
  unfold tryStandalone at h
  split at h
  · cases h
  · rename_i m heq
    split at h
    · cases h
    · rename_i hconn
      refine ⟨by rw [heq]; rfl, ?_⟩
      rw [Bool.not_eq_true] at hconn
      rw [List.all_eq_true]
      intro w hw
      rcases List.any_eq_false.mp hconn w hw |> fun hx => hx with hx
      simp [hx]

/-- C6 (amended): a value produced by the written-date pass comes from one of
the three anchored patterns (case number, Coram, Judgment) or from the
anchor-free catch-all written-date pattern that matches anywhere in the
joined first 50 rendered lines; a value produced by the standalone pass comes
from a line among the first 30 whose start matches a standalone pattern and
which contains none of the connector words. -/
theorem spec_C6_amended :
    (∀ header v : String, writtenPhase header = some v →
      (∃ p ∈ anchoredWrittenPats, (reSearch p header).isSome = true) ∨
        (reSearch writtenCatchAllPat header).isSome = true) ∧
    (∀ (lines : List String) (v : String), standalonePhase lines = some v →
      ∃ line ∈ lines.take 30,
        (∃ p ∈ standalonePats, (reMatch p line).isSome = true) ∧
          connectorWords.all (fun w => !(pyContains (pyUpper line) w)) = true) := by
  constructor
  · intro header v h
    rcases firstSome_eq_some h with ⟨p, hmem, hp⟩
    unfold writtenDatePats at hmem
    rcases List.mem_append.mp hmem with hmem | hmem
    · exact Or.inl ⟨p, hmem, tryHeaderPat_search hp⟩
    · rcases List.mem_singleton.mp hmem with rfl
      exact Or.inr (tryHeaderPat_search hp)
  · intro lines v h
    rcases firstSome_eq_some h with ⟨line, hline, hl⟩
    rcases firstSome_eq_some hl with ⟨p, hpm, hp⟩
    rcases tryStandalone_sources hp with ⟨hm, hc⟩
    exact ⟨line, hline, ⟨p, hpm, hm⟩, hc⟩

theorem addSegs_inBody (mx : Nat) :
    ∀ (segs : List String) (st : RenderState),
      (addSegs mx segs st).inBody = st.inBody := by
  intro segs
  induction segs with
  | nil => intro st; rfl
  | cons seg rest ih =>
    intro st
    unfold addSegs
    split
    · rfl
    · split
      · exact ih st
      · exact ih _

theorem addSegs_lines_mem {mx : Nat} {l : String} :
    ∀ (segs : List String) (st : RenderState),
      l ∈ (addSegs mx segs st).lines →
      l ∈ st.lines ∨ ∃ seg ∈ segs, l = pyStrip seg ∧ l ≠ "" := by
  intro segs
  induction segs with
  | nil => intro st h; exact Or.inl h
  | cons seg rest ih =>
    intro st h
    unfold addSegs at h
    split at h
    · exact Or.inl h
    · split at h
      · rcases ih _ h with h' | ⟨sg, hsg, he⟩
        · exact Or.inl h'
        · exact Or.inr ⟨sg, List.mem_cons_of_mem _ hsg, he⟩
      · rename_i hne
        rcases ih _ h with h' | ⟨sg, hsg, he⟩
        · rcases List.mem_append.mp h' with h'' | h''
          · exact Or.inl h''
          · have heq := List.mem_singleton.mp h''
            exact Or.inr ⟨seg, List.mem_cons_self _ _, heq,
              heq ▸ hne⟩
        · exact Or.inr ⟨sg, List.mem_cons_of_mem _ hsg, he⟩

theorem foldRender_mem (mx : Nat) (l : String) :
    ∀ (es : List HEvent) (st : RenderState),
      l ∈ (es.foldl (feedEvent mx) st).lines →
      l ∈ st.lines ∨ ∃ d ∈ bodyChunksSpec es st.inBody,
        ∃ seg ∈ pySplitNl d, l = pyStrip seg ∧ l ≠ "" := by
  intro es
  induction es with
  | nil => intro st h; exact Or.inl h
  | cons ev rest ih =>
    intro st h
    rw [List.foldl_cons] at h
    cases ev with
    | startTag n =>
      simp only [feedEvent] at h
      by_cases hn : n = "body"
      · rw [if_pos hn] at h
        rcases ih _ h with h' | ⟨d, hd, hseg⟩
        · exact Or.inl h'
        · refine Or.inr ⟨d, ?_, hseg⟩
          unfold bodyChunksSpec
          rw [if_pos hn]
          exact hd
      · rw [if_neg hn] at h
        rcases ih _ h with h' | ⟨d, hd, hseg⟩
        · exact Or.inl h'
        · refine Or.inr ⟨d, ?_, hseg⟩
          unfold bodyChunksSpec
          rw [if_neg hn]
          exact hd
    | endTag n =>
      simp only [feedEvent] at h
      by_cases hn : n = "body"
      · rw [if_pos hn] at h
        rcases ih _ h with h' | ⟨d, hd, hseg⟩
        · exact Or.inl h'
        · refine Or.inr ⟨d, ?_, hseg⟩
          unfold bodyChunksSpec
          rw [if_pos hn]
          exact hd
      · rw [if_neg hn] at h
        rcases ih _ h with h' | ⟨d, hd, hseg⟩
        · exact Or.inl h'
        · refine Or.inr ⟨d, ?_, hseg⟩
          unfold bodyChunksSpec
          rw [if_neg hn]
          exact hd
    | commentChunk c =>
      simp only [feedEvent] at h
      rcases ih _ h with h' | ⟨d, hd, hseg⟩
      · exact Or.inl h'
      · exact Or.inr ⟨d, hd, hseg⟩
    | dataChunk dch =>
      simp only [feedEvent] at h
      split at h
      · rename_i hcond
        have hb : st.inBody = true := (Bool.and_eq_true _ _ |>.mp hcond).1
        rcases ih _ h with h' | ⟨d, hd, hseg⟩
        · rcases addSegs_lines_mem _ _ h' with h'' | ⟨seg, hsm, heq, hne⟩
          · exact Or.inl h''
          · refine Or.inr ⟨dch, ?_, seg, hsm, heq, hne⟩
            unfold bodyChunksSpec
            rw [hb]
            exact List.mem_append.mpr (Or.inl (by simp))
        · refine Or.inr ⟨d, ?_, hseg⟩
          unfold bodyChunksSpec
          rw [hb]
          rw [addSegs_inBody, hb] at hd
          exact List.mem_append.mpr (Or.inr hd)
      · rcases ih _ h with h' | ⟨d, hd, hseg⟩
        · exact Or.inl h'
        · refine Or.inr ⟨d, ?_, hseg⟩
          unfold bodyChunksSpec
          cases hb : st.inBody with
          | true =>
            rw [hb] at hd
            exact List.mem_append.mpr (Or.inr hd)
          | false =>
            rw [hb] at hd
            simpa using hd

/-- C4 (amended): every rendered line is nonempty and is the Python-strip of
a newline-segment of a character-data chunk delivered inside the body region
(so it is whitespace-trimmed).  Content of script and style elements inside
the body is NOT excluded: it reaches `handle_data` like any other character
data, so it can appear among the rendered lines. -/
theorem spec_C4_amended (mx : Nat) (html l : String)
    (hl : l ∈ renderLines mx html) :
    l ≠ "" ∧ ∃ d ∈ bodyChunksSpec (tokenize html) false,
      ∃ seg ∈ pySplitNl d, l = pyStrip seg := by
  unfold renderLines at hl
  rcases foldRender_mem mx l (tokenize html) ⟨[], false, 0⟩ hl with
    h | ⟨d, hd, seg, hsm, heq, hne⟩
  · exact absurd h (List.not_mem_nil l)
  · exact ⟨hne, d, hd, seg, hsm, heq⟩

theorem foldRender_no_body (mx : Nat) :
    ∀ (es : List HEvent) (ls : List String) (lc : Nat),
      HEvent.startTag "body" ∉ es →
      es.foldl (feedEvent mx) ⟨ls, false, lc⟩ = ⟨ls, false, lc⟩ := by
  intro es
  induction es with
  | nil => intro ls lc _; rfl
  | cons ev rest ih =>
    intro ls lc hmem
    have hrest : HEvent.startTag "body" ∉ rest :=
      fun hc => hmem (List.mem_cons_of_mem _ hc)
    rw [List.foldl_cons]
    cases ev with
    | startTag n =>
      have hn : n ≠ "body" := fun he => hmem (he ▸ List.mem_cons_self _ _)
      simp only [feedEvent]
      rw [if_neg hn]
      exact ih ls lc hrest
    | endTag n =>
      simp only [feedEvent]
      by_cases hn : n = "body"
      · rw [if_pos hn]
        exact ih ls lc hrest
      · rw [if_neg hn]
        exact ih ls lc hrest
    | dataChunk d =>
      simp only [feedEvent]
      rw [if_neg (by simp)]
      exact ih ls lc hrest
    | commentChunk c =>
      simp only [feedEvent]
      exact ih ls lc hrest

/-- C10: for a document with no `<body>` start tag the renderer produces no
lines at all, so the date extractor reduces to its raw-HTML (split-tag)
phase, and the title extractor reduces to the raw-HTML strategy followed by
the filename fallback. -/
theorem spec_C10_no_body (html fn : String) (mx : Nat)
    (hb : HEvent.startTag "body" ∉ tokenize html) :
    renderLines mx html = [] ∧
    extract_text_first_150_lines html = [] ∧
    extract_plain_text_first_50_lines html = "" ∧
    find_judgment_date_in_html html = htmlDatePhase html ∧
    extract_case_title (some html) fn = titleSkippingRenderedText html fn := by
  have h0 : ∀ mx' : Nat, renderLines mx' html = [] := by
    intro mx'
    unfold renderLines
    rw [foldRender_no_body mx' (tokenize html) [] 0 hb]
  have hext : extract_text_first_150_lines html = [] := by
    unfold extract_text_first_150_lines
    rw [h0 150]
    rfl
  have hplain : extract_plain_text_first_50_lines html = "" := by
    unfold extract_plain_text_first_50_lines
    rw [h0 50, List.take_nil, joinWith_nil]
  have htxt : textStrategyResult html = none := by
    unfold textStrategyResult
    rw [if_neg (fun hne => hne hplain)]
  refine ⟨h0 mx, hext, hplain, ?_, ?_⟩
  · unfold find_judgment_date_in_html
    cases hph : htmlDatePhase html with
    | some v => simp only [hph]
    | none =>
      simp only [hph]
      rw [hext]
      rfl
  · unfold extract_case_title titleSkippingRenderedText
    simp only [htxt]

end

/-! ## Concrete evaluations -/

/-- C1 (counterexample): on the document `<body>[31/02/2004]</body>` the
bracketed slash date 31/02/2004 fails both the day-first and the month-first
interpretation, yet `find_judgment_date_in_html` returns the unparsed matched
text `"31/02/2004"` — not a canonical `YYYY-MM-DD` value and not "no value",
contradicting the claim that a candidate failing every date-format parse
yields no value. -/
theorem spec_C1_counterexample :
    find_judgment_date_in_html "<body>[31/02/2004]</body>" = some "31/02/2004" ∧
      ¬ IsCanonicalDate "31/02/2004" := by
  constructor
  · decide
  · exact not_canonical_of_slash (by decide)

/-- C1 (witness): the amended theorem applied to a concrete document whose
bracketed date parses. -/
theorem spec_C1_witness : DateResultOk "2004-03-26" :=
  spec_C1_amended "<body>[26/03/2004]</body>" "2004-03-26" (by decide)

/-- C2 (witness): a record with a nonempty, non-sentinel title and date is
untouched by both updaters. -/
theorem spec_C2_witness :
    update_json_file_title (fun _ => none) "a.json" "LF"
        ⟨some "AN EXISTING TITLE", some "1999-12-31", some "doc.html"⟩ =
      (⟨some "AN EXISTING TITLE", some "1999-12-31", some "doc.html"⟩, false) ∧
    update_json_file_date (fun _ => none) "a.json" "LF"
        ⟨some "AN EXISTING TITLE", some "1999-12-31", some "doc.html"⟩ =
      (⟨some "AN EXISTING TITLE", some "1999-12-31", some "doc.html"⟩, false) :=
  ⟨(spec_C2_update_invariant (fun _ => none) "a.json" "LF" _).1
      ⟨by decide, by decide⟩,
   (spec_C2_update_invariant (fun _ => none) "a.json" "LF" _).2.1
      ⟨by decide, by decide⟩⟩

/-- C5: a matched slash-numeric date is resolved day-first: the day/month/year
reading is used whenever it is a valid calendar date, and month/day/year is
used only when day-first fails; concretely `03/04/2004` normalizes to
`2004-04-03` and `13/04/2004` to `2004-04-13`, both through
`parse_date_from_text` and through the whole extractor on a bracketed date. -/
theorem spec_C5_slash_day_first :
    (∀ d m y : Nat, dateValid y m d = true →
      parseSlashNums d m y = some (formatISO y m d)) ∧
    (∀ d m y : Nat, dateValid y m d = false → dateValid y d m = true →
      parseSlashNums d m y = some (formatISO y d m)) ∧
    (∀ d m y : Nat, dateValid y m d = false → dateValid y d m = false →
      parseSlashNums d m y = none) ∧
    parse_date_from_text "03/04/2004" = "2004-04-03" ∧
    parse_date_from_text "13/04/2004" = "2004-04-13" ∧
    find_judgment_date_in_html "<body>[03/04/2004]</body>" = some "2004-04-03" ∧
    find_judgment_date_in_html "<body>[13/04/2004]</body>" = some "2004-04-13" := by
  refine ⟨?_, ?_, ?_, by decide, by decide, by decide, by decide⟩
  · intro d m y h
    unfold parseSlashNums
    rw [if_pos h]
  · intro d m y h1 h2
    unfold parseSlashNums
    rw [if_neg (by simp [h1]), if_pos h2]
  · intro d m y h1 h2
    unfold parseSlashNums
    rw [if_neg (by simp [h1]), if_neg (by simp [h2])]

/-- C5 (witness): the day-first branch of the theorem applied to the
ambiguous date 3/4/2004. -/
theorem spec_C5_witness :
    parseSlashNums 3 4 2004 = some (formatISO 2004 4 3) :=
  spec_C5_slash_day_first.1 3 4 2004 (by decide)

/-- C9: evaluation of the split-line separator normalization at the claim's
inputs.  The triple `["JOHN DOE", "VRS", "JANE ROE"]` does yield
`"JOHN DOE VRS JANE ROE"`, but the triple `["JOHN DOE", "v.", "JANE ROE"]`,
whose middle line matches the separator token `v.`, yields
`"JOHN DOE VERSUS JANE ROE"`: the source decides the normalized separator by
`'V\.' in line2 or 'V ' in line2`, and `'V\.'` is the literal three-character
string V-backslash-dot (backslash-dot is not an escape in a plain Python
string), so a middle line `v.` never selects `v.` and falls through to
`VERSUS`, against the claim (and the clear intent of the regex-style check). -/
theorem spec_C9_separator_evaluation :
    find_case_title_in_text "JOHN DOE\nVRS\nJANE ROE" =
      some "JOHN DOE VRS JANE ROE" ∧
    find_case_title_in_text "JOHN DOE\nv.\nJANE ROE" =
      some "JOHN DOE VERSUS JANE ROE" ∧
    (reSearch sepTokenPat (pyUpper "v.")).isSome = true ∧
    vWordChoice (pyUpper "v.") = "VERSUS" := by
  refine ⟨by decide, by decide, by decide, by decide⟩

/-- C3 (counterexample): on the filename `" Pages.Gif .json"` (no readable
document) the title extractor returns `"Pages.Gif"`: a string of length 9 ≤
10 that equals the sentinel `"pages.gif"` case-insensitively.  The filename
fallback checks its length and the sentinel before the final `strip()` and
compares case-sensitively, so the claim fails on both counts. -/
theorem spec_C3_counterexample :
    extract_case_title none " Pages.Gif .json" = some "Pages.Gif" ∧
      "Pages.Gif".length ≤ 10 ∧ pyLower "Pages.Gif" = "pages.gif" := by
  refine ⟨by decide, by decide, by decide⟩

/-- C3 (witness): the amended theorem at concrete inputs of each kind. -/
theorem spec_C3_witness :
    ("Pages.Gif" ≠ "pages.gif" ∧ "Pages.Gif" ≠ "") ∧
      10 < "JOHN DOE v. JANE ROE".length :=
  ⟨spec_C3_amended.1 none " Pages.Gif .json" "Pages.Gif" (by decide),
   spec_C3_amended.2.1 "JOHN DOE v. JANE ROE [2020] GHASC 1"
     "JOHN DOE v. JANE ROE" (by decide)⟩

/-- C7 (counterexample): the matter-of strategy returns
`"IN THE MATTER OF JOHN H12/34/56 ESTATE"` with the trailing case-number
suffix still present — applying the claimed shared acceptance rule (whose
case-number strip `\s*H\d+/\d+/\d+.*?$` matches this candidate) would have
changed it, so the same acceptance rule is not applied after every
strategy. -/
theorem spec_C7_counterexample :
    find_case_title_in_text "IN THE MATTER OF JOHN H12/34/56 ESTATE" =
      some "IN THE MATTER OF JOHN H12/34/56 ESTATE" ∧
    reSub hTailSubPat (fun _ => "") "IN THE MATTER OF JOHN H12/34/56 ESTATE" =
      "IN THE MATTER OF JOHN" := by
  refine ⟨by decide, by decide⟩

/-- C7 (witness): the single-line part of the amended theorem at a concrete
line. -/
theorem spec_C7_witness :
    (∃ m0, "JOHN DOE v. JANE ROE" = cleanSingleLineTitle m0) ∧
      10 < "JOHN DOE v. JANE ROE".length ∧
      pyContains (pyLower "JOHN DOE v. JANE ROE") "pages.gif" = false :=
  spec_C7_amended.1 "JOHN DOE v. JANE ROE [2020] GHASC 1" single1Pat
    "JOHN DOE v. JANE ROE" (by decide)

/-- C8 (counterexample): the triple
`["JOHN DOE SMITH", "VRS", "CORAM BLAH BLAH"]` has a defendant fragment
containing the metadata word CORAM, yet the split-line strategy accepts it
and returns the title — the defendant fragment is only checked against
DEFENDANT, RESPONDENT, APPELLANT. -/
theorem spec_C8_counterexample :
    find_case_title_in_text "JOHN DOE SMITH\nVRS\nCORAM BLAH BLAH" =
      some "JOHN DOE SMITH VRS CORAM BLAH BLAH" ∧
    partyFrag "CORAM BLAH BLAH" = some "CORAM BLAH BLAH" ∧
    pyContains (pyUpper "CORAM BLAH BLAH") "CORAM" = true := by
  refine ⟨by decide, by decide, by decide⟩

/-- C8 (witness): the amended rejection rule at a concrete triple whose
plaintiff fragment contains CORAM. -/
theorem spec_C8_witness :
    considerTriple "CORAM OF THE COURT" "VRS" "JANE ROE LONGNAME" = none :=
  spec_C8_amended "CORAM OF THE COURT" "VRS" "JANE ROE LONGNAME"
    "CORAM OF THE COURT" "JANE ROE LONGNAME" (by decide) (by decide)
    (Or.inl (by decide))

/-- C6 (counterexample): in `<body>happy day 15 June 2004 maybe</body>` the
written date sits mid-line in prose — no contextual anchor matches the header
text, the bracket pass and raw-HTML pass fail, and the standalone pass
rejects every line — yet the extractor returns `2004-06-15` (through the
anchor-free catch-all written-date pattern the claim does not allow). -/
theorem spec_C6_counterexample :
    find_judgment_date_in_html "<body>happy day 15 June 2004 maybe</body>" =
      some "2004-06-15" ∧
    anchoredWrittenPats.all
        (fun p => !(reSearch p
          (headerText "<body>happy day 15 June 2004 maybe</body>")).isSome) =
      true ∧
    bracketPhase (headerText "<body>happy day 15 June 2004 maybe</body>") =
      none ∧
    standalonePhase
        (extract_text_first_150_lines "<body>happy day 15 June 2004 maybe</body>") =
      none ∧
    htmlDatePhase "<body>happy day 15 June 2004 maybe</body>" = none := by
  refine ⟨by decide, by decide, by decide, by decide, by decide⟩

/-- C6 (witness): the amended theorem at a concrete header whose date follows
the Coram anchor. -/
theorem spec_C6_witness :
    (∃ p ∈ anchoredWrittenPats,
      (reSearch p "Coram Foo J 26 March 2004").isSome = true) ∨
      (reSearch writtenCatchAllPat "Coram Foo J 26 March 2004").isSome = true :=
  spec_C6_amended.1 "Coram Foo J 26 March 2004" "2004-03-26" (by decide)

/-- C4 (counterexample): in `<body><script>EVIL CODE</script></body>` the
content of the script element is delivered to `handle_data` (the parser
enters CDATA mode but neither subclass filters it), so the rendered line
sequence is exactly `["EVIL CODE"]` — script content appears in the rendered
lines, contradicting the claimed script/style exclusion. -/
theorem spec_C4_counterexample :
    renderLines 50 "<body><script>EVIL CODE</script></body>" = ["EVIL CODE"] ∧
    "EVIL CODE" ∈ scriptStyleChunksSpec
      (tokenize "<body><script>EVIL CODE</script></body>") false := by
  refine ⟨by decide, by decide⟩

/-- C4 (witness): the amended theorem at a concrete document. -/
theorem spec_C4_witness :
    "hello world line" ≠ "" ∧
      ∃ d ∈ bodyChunksSpec (tokenize "<body>hello world line</body>") false,
        ∃ seg ∈ pySplitNl d, "hello world line" = pyStrip seg :=
  spec_C4_amended 50 "<body>hello world line</body>" "hello world line"
    (by decide)

/-- C10 (witness): the theorem at a concrete document without a body tag. -/
theorem spec_C10_witness :
    renderLines 50 "<p>HELLO</p>" = [] ∧
    extract_text_first_150_lines "<p>HELLO</p>" = [] ∧
    extract_plain_text_first_50_lines "<p>HELLO</p>" = "" ∧
    find_judgment_date_in_html "<p>HELLO</p>" = htmlDatePhase "<p>HELLO</p>" ∧
    extract_case_title (some "<p>HELLO</p>") "X.json" =
      titleSkippingRenderedText "<p>HELLO</p>" "X.json" :=
  spec_C10_no_body "<p>HELLO</p>" "X.json" 50 (by decide)

end LawFinder
